import Mathlib

/-!
Verification development for the OCR-text extraction engine of the
blood-pressure data repository (src/services/aiService.ts, function
extractDataFromText).  The JavaScript routine is shallowly embedded:

* strings are lists of characters (the inputs of interest are ASCII);
* every regular expression the routine uses is embedded as a matcher in a
  list-of-successes backtracking monad whose candidate order mirrors the
  JS regex engine (leftmost position, ordered alternation, greedy
  quantifiers), including word boundaries;
* JS `Number(...)` results are embedded as `JSNum`: `NaN`, or an exact
  value `a + b/100` (the only fractional strings the routine can feed to
  `Number` have at most two fractional digits, so this representation is
  exact, and comparisons/`toString` agree with IEEE doubles there);
* the mutable local variables of the routine become explicit state
  threaded through stage functions in the source's execution order.
-/

namespace Re

/-- JS regex `\w` (word character): ASCII letters, digits, underscore. -/
def isWordCh (c : Char) : Bool :=
  (('a' ≤ c && c ≤ 'z') || ('A' ≤ c && c ≤ 'Z') || ('0' ≤ c && c ≤ '9') || c = '_')

/-- JS regex `\s` (whitespace), restricted to the ASCII range. -/
def isSpaceCh (c : Char) : Bool :=
  (c = ' ' || c = '\t' || c = '\n' || c = '\r' || c = '\x0b' || c = '\x0c')

/-- JS regex `\d` (code points 48–57). -/
def isDigitCh (c : Char) : Bool := (decide (48 ≤ c.toNat) && decide (c.toNat ≤ 57))

/-- ASCII lowercasing, as `String.prototype.toLowerCase` acts on ASCII. -/
def lowerCh (c : Char) : Char :=
  if 'A' ≤ c && c ≤ 'Z' then Char.ofNat (c.toNat + 32) else c

/-- A scanning position: the previous character (for `\b`) and the rest. -/
abbrev Pos : Type := Option Char × List Char

/-- Backtracking matcher: all ways to match from a position, in the JS
regex engine's preference order (the head is the match JS would take). -/
def M (α : Type) : Type := Pos → List (α × Pos)

instance : Monad M where
  pure a := fun p => [(a, p)]
  bind x f := fun p => (x p).flatMap (fun r => f r.1 r.2)

/-- Matcher that always fails. -/
def mFail : M α := fun _ => []

/-- Ordered alternation (JS `x|y`: try `x` first, backtrack into `y`). -/
def mOr (x y : M α) : M α := fun p => x p ++ y p

/-- Consume one character satisfying a predicate. -/
def mCh (f : Char → Bool) : M Char := fun p =>
  match p.2 with
  | [] => []
  | c :: r => if f c then [(c, (some c, r))] else []

/-- Case-insensitive literal (all the routine's patterns carry the `i`
flag or are case-neutral). -/
def mLit : List Char → M Unit
  | [] => pure ()
  | c :: cs => fun p =>
      match p.2 with
      | [] => []
      | d :: r => if lowerCh d = lowerCh c then mLit cs (some d, r) else []

/-- Word boundary `\b`: word-ness differs between the previous and the
next character (string edges count as non-word). -/
def mBound : M Unit := fun p =>
  let wPrev := match p.1 with | some c => isWordCh c | none => false
  let wNext := match p.2 with | c :: _ => isWordCh c | [] => false
  if wPrev = wNext then [] else [((), p)]

/-- All positions reachable by consuming whitespace, greediest first. -/
def spacesFrom : Option Char → List Char → List Pos
  | pv, [] => [(pv, [])]
  | pv, c :: r =>
      if isSpaceCh c then spacesFrom (some c) r ++ [(pv, c :: r)]
      else [(pv, c :: r)]

/-- Greedy `\s*`. -/
def mSpaces0 : M Unit := fun p => (spacesFrom p.1 p.2).map (fun q => ((), q))

/-- Greedy `\s+`. -/
def mSpaces1 : M Unit := fun p =>
  match p.2 with
  | [] => []
  | c :: r =>
      if isSpaceCh c then (spacesFrom (some c) r).map (fun q => ((), q))
      else []

/-- All digit-prefix splits of bounded length, shortest first. -/
def digitSplits : Option Char → List Char → Nat → List (List Char × Pos)
  | pv, l, 0 => [([], (pv, l))]
  | pv, [], _ + 1 => [([], (pv, []))]
  | pv, c :: r, n + 1 =>
      if isDigitCh c then
        ([], (pv, c :: r)) ::
          (digitSplits (some c) r n).map (fun q => (c :: q.1, q.2))
      else [([], (pv, c :: r))]

/-- Greedy bounded digit run `\d{lo,hi}`, returning the digits consumed
(longest candidate first, as the JS engine backtracks). -/
def mDigits (lo hi : Nat) : M (List Char) := fun p =>
  ((digitSplits p.1 p.2 hi).reverse).filter (fun q => lo ≤ q.1.length)

/-- Decimal value of a digit string, as JS `Number` on an integer string. -/
def parseDigits (l : List Char) : Nat :=
  l.foldl (fun acc c => 10 * acc + (c.toNat - 48)) 0

/-- Greedy bounded digit capture returning its numeric value. -/
def mNum (lo hi : Nat) : M Nat := fun p =>
  (mDigits lo hi p).map (fun q => (parseDigits q.1, q.2))

/-- Greedy `x?` (try consuming first). -/
def mOpt (x : M α) : M (Option α) := fun p =>
  (x p).map (fun q => (some q.1, q.2)) ++ [(none, p)]

/-- The match the JS engine takes at this exact position, if any. -/
def runHead (m : M α) (p : Pos) : Option (α × Pos) := (m p).head?

/-- Leftmost match: try each start position in order. -/
def findFirstAux (m : M α) : Option Char → List Char → Option (α × Pos)
  | pv, [] => runHead m (pv, [])
  | pv, c :: r =>
    match runHead m (pv, c :: r) with
    | some res => some res
    | none => findFirstAux m (some c) r

/-- Result of `text.match(re)` without the `g` flag (captures only). -/
def findFirst (m : M α) (l : List Char) : Option α :=
  (findFirstAux m none l).map (fun r => r.1)

/-- Leftmost match together with the skipped prefix, the matched
characters and the position after the match. -/
def findStep (m : M α) : Option Char → List Char → Option (List Char × List Char × α × Pos)
  | pv, l =>
    match runHead m (pv, l) with
    | some (a, q) => some ([], l.take (l.length - q.2.length), a, q)
    | none =>
      match l with
      | [] => none
      | c :: r =>
        match findStep m (some c) r with
        | none => none
        | some (sk, mt, a, q) => some (c :: sk, mt, a, q)

/-- Fuelled scan for `text.match(re)` with the `g` flag: successive
leftmost matches, each search resuming after the previous match. -/
def gAll (m : M α) : Nat → Option Char → List Char → List (α × List Char)
  | 0, _, _ => []
  | fuel + 1, pv, l =>
    match findStep m pv l with
    | none => []
    | some (_, mt, a, (pv', l')) =>
      (a, mt) ::
        (if l'.length < l.length then gAll m fuel pv' l'
         else
           match l' with
           | [] => []
           | c :: r => gAll m fuel (some c) r)

/-- All matches of a global regex over a string (capture and match text). -/
def matchAll (m : M α) (l : List Char) : List (α × List Char) :=
  gAll m (l.length + 1) none l

/-- Fuelled global replace. -/
def gRepl (m : M α) (f : α → List Char) : Nat → Option Char → List Char → List Char
  | 0, _, l => l
  | fuel + 1, pv, l =>
    match findStep m pv l with
    | none => l
    | some (sk, _, a, (pv', l')) =>
      sk ++ f a ++ (if l'.length < l.length then gRepl m f fuel pv' l' else l')

/-- `text.replace(re, f)` with the `g` flag. -/
def replaceAll (m : M α) (f : α → List Char) (l : List Char) : List Char :=
  gRepl m f (l.length + 1) none l

/-- `haystack.startsWith(needle)` (exact characters). -/
def startsWithL : List Char → List Char → Bool
  | _, [] => true
  | [], _ :: _ => false
  | c :: r, d :: s => c = d && startsWithL r s

/-- JS `String.prototype.includes`. -/
def containsSub : List Char → List Char → Bool
  | [], sub => startsWithL [] sub
  | c :: r, sub => startsWithL (c :: r) sub || containsSub r sub

/-- JS `String.prototype.indexOf` (length of the string when absent; the
routine only reads it after an `includes` guard). -/
def idxOfSub : List Char → List Char → Nat
  | [], _ => 0
  | c :: r, sub => if startsWithL (c :: r) sub then 0 else 1 + idxOfSub r sub

/-- JS `String.prototype.substring` for the routine's calls (start ≤ end;
both indices clamp to the string length). -/
def jsSubstring (l : List Char) (a b : Nat) : List Char := (l.take b).drop a

end Re

namespace Ai

open Re

/-- Characters of a string literal. -/
def strL (s : String) : List Char := s.data

/-- Embedded JS number as produced by `Number(...)` in this routine:
`NaN`, or the exact value `a + b/100` (`b < 100`; every fractional string
the routine feeds to `Number` has at most two fractional digits, so IEEE
comparison against small integers and `toString` agree with this exact
representation). -/
inductive JSNum where
  | nan : JSNum
  | fin : Nat → Nat → JSNum
deriving DecidableEq

/-- An integer-valued JS number. -/
def jsInt (n : Nat) : JSNum := JSNum.fin n 0

/-- JS comparison `x >= k` (false for NaN). -/
def jsGe (x : JSNum) (k : Nat) : Bool :=
  match x with
  | JSNum.nan => false
  | JSNum.fin a _ => decide (k ≤ a)

/-- JS comparison `x <= k` (false for NaN). -/
def jsLe (x : JSNum) (k : Nat) : Bool :=
  match x with
  | JSNum.nan => false
  | JSNum.fin a b => decide (a < k) || (decide (a = k) && decide (b = 0))

/-- The integer part; used where the routine stores an in-range (hence
integral) JS number into a field. -/
def jsToNat (x : JSNum) : Nat :=
  match x with
  | JSNum.nan => 0
  | JSNum.fin a _ => a

/-- Strip leading and trailing JS whitespace (`Number` trims first). -/
def trimWS (l : List Char) : List Char :=
  ((l.dropWhile isSpaceCh).reverse.dropWhile isSpaceCh).reverse

/-- Split a string at its only dot, if it has exactly one. -/
def splitOnDot : List Char → Option (List Char × List Char)
  | [] => none
  | c :: r =>
      if c = '.' then (if r.contains '.' then none else some ([], r))
      else
        match splitOnDot r with
        | some (ip, fp) => some (c :: ip, fp)
        | none => none

/-- Hundredth-part value of a one-or-two-digit fractional part. -/
def fracVal (fp : List Char) : Nat :=
  if fp.length = 1 then 10 * parseDigits fp else parseDigits fp

/-- JS `Number(s)` on the strings this routine produces: an optionally
dotted decimal numeral (at most two fractional digits ever arise here),
the empty string (0), or anything else (NaN). -/
def jsNumOfStr (l : List Char) : JSNum :=
  let t := trimWS l
  if t.isEmpty then jsInt 0
  else if t.all isDigitCh then jsInt (parseDigits t)
  else
    match splitOnDot t with
    | some (ip, fp) =>
        if !ip.isEmpty && !fp.isEmpty && ip.all isDigitCh && fp.all isDigitCh
            && decide (fp.length ≤ 2) then
          JSNum.fin (parseDigits ip) (fracVal fp)
        else JSNum.nan
    | none => JSNum.nan

/-- JS `Number(x)` where `x` may be `undefined` (an absent array slot). -/
def jsNumOpt (o : Option (List Char)) : JSNum :=
  match o with
  | none => JSNum.nan
  | some s => jsNumOfStr s

/-- Decimal rendering of a natural number. -/
def natStr (n : Nat) : List Char := (Nat.repr n).data

/-- JS `padStart(2, '0')`. -/
def pad2 (l : List Char) : List Char :=
  if l.length < 2 then List.replicate (2 - l.length) '0' ++ l else l

/-- JS `toString` of an embedded number (shortest round-trip form:
trailing fractional zeros dropped, `NaN` rendered literally). -/
def jsNumStr (x : JSNum) : List Char :=
  match x with
  | JSNum.nan => strL "NaN"
  | JSNum.fin a b =>
      if b = 0 then natStr a
      else if b % 10 = 0 then natStr a ++ '.' :: natStr (b / 10)
      else natStr a ++ '.' :: pad2 (natStr b)

/-- JS `x.toString().padStart(2, '0')`. -/
def jsNumPad2 (x : JSNum) : List Char := pad2 (jsNumStr x)

/-- ASCII uppercasing, as `toUpperCase` acts on ASCII. -/
def upperCh (c : Char) : Char :=
  if 'a' ≤ c && c ≤ 'z' then Char.ofNat (c.toNat - 32) else c

/-- JS `toUpperCase` on ASCII strings. -/
def upperL (l : List Char) : List Char := l.map upperCh

/-- Whitespace-collapse state machine for `replace(/\s+/g, ' ')`; the
flag records whether we are inside a whitespace run already emitted. -/
def collapseWSAux : Bool → List Char → List Char
  | _, [] => []
  | inRun, c :: r =>
      if isSpaceCh c then
        if inRun then collapseWSAux true r else ' ' :: collapseWSAux true r
      else c :: collapseWSAux false r

/-- `replace(/\s+/g, ' ')`: each maximal whitespace run becomes one space. -/
def collapseWS (l : List Char) : List Char := collapseWSAux false l

/-- `replace(/[^\w\s\/\-\:\.]/g, ' ')`: one space per stripped character. -/
def stripCh (c : Char) : Char :=
  if isWordCh c || isSpaceCh c || c = '/' || c = '-' || c = ':' || c = '.' then c
  else ' '

/-- Pattern `\b0(\d)\b` of the leading-zero rewrite. -/
def mLeadZero : M Char := do
  mBound
  mLit (strL "0")
  let c ← mCh isDigitCh
  mBound
  pure c

/-- Pattern `\bsys(\d{2,3})\b`. -/
def mSysAttach : M (List Char) := do
  mBound
  mLit (strL "sys")
  let ds ← mDigits 2 3
  mBound
  pure ds

/-- Pattern `\bdia(\d{2,3})\b`. -/
def mDiaAttach : M (List Char) := do
  mBound
  mLit (strL "dia")
  let ds ← mDigits 2 3
  mBound
  pure ds

/-- Pattern `\bs(\d{2,3})\b`. -/
def mSAttach : M (List Char) := do
  mBound
  mLit (strL "s")
  let ds ← mDigits 2 3
  mBound
  pure ds

/-- Pattern `\bd(\d{2,3})\b`. -/
def mDAttach : M (List Char) := do
  mBound
  mLit (strL "d")
  let ds ← mDigits 2 3
  mBound
  pure ds

/-- Word token surrounded by `\b` (for the fixed-token rewrites). -/
def mTokB (s : String) : M Unit := do
  mBound
  mLit (strL s)
  mBound

/-- The normalizer `preprocessText` of the source, on character lists:
whitespace collapse, noise stripping, leading-zero removal, label/number
splitting, the fixed OCR-misread rewrites, then lowercasing — in the
source's order. -/
def preprocessL (l : List Char) : List Char :=
  let s1 := collapseWS l
  let s2 := s1.map stripCh
  let s3 := replaceAll mLeadZero (fun c => [c]) s2
  let s4 := replaceAll mSysAttach (fun ds => strL "sys " ++ ds) s3
  let s5 := replaceAll mDiaAttach (fun ds => strL "dia " ++ ds) s4
  let s6 := replaceAll mSAttach (fun ds => strL "s " ++ ds) s5
  let s7 := replaceAll mDAttach (fun ds => strL "d " ++ ds) s6
  let s8 := replaceAll (mTokB "minig") (fun _ => strL "mmhg") s7
  let s9 := replaceAll (mTokB "1+") (fun _ => []) s8
  let s10 := replaceAll (mTokB "+") (fun _ => []) s9
  let s11 := replaceAll (mTokB "%") (fun _ => []) s10
  let s12 := replaceAll (mTokB "cm") (fun _ => strL "7m") s11
  let s13 := replaceAll (mTokB "c1") (fun _ => strL "7m") s12
  let s14 := replaceAll (mTokB "c9") (fun _ => strL "7m") s13
  let s15 := replaceAll (mTokB "mid") (fun _ => strL "7m") s14
  s15.map lowerCh

/-- The source's `preprocessText` on strings. -/
def preprocessText (s : String) : String := String.mk (preprocessL s.data)

end Ai

namespace Ai

open Re

/-- The record returned by `extractDataFromText`. -/
structure ExtractionResult where
  day : Nat
  month : Nat
  time : String
  period : String
  sys : Nat
  dia : Nat
  pulse : Nat
deriving DecidableEq

/-- Alternation of the month label `(?:month|mo|m)`. -/
def mMonthLbl : M Unit := mOr (mLit (strL "month")) (mOr (mLit (strL "mo")) (mLit (strL "m")))

/-- Month pattern 1: `\b(\d{1,2})\s*(?:month|mo|m)\b`. -/
def mMonth1 : M Nat := do
  mBound
  let n ← mNum 1 2
  mSpaces0
  mMonthLbl
  mBound
  pure n

/-- Month pattern 2: `\b(?:month|mo|m)\s*(\d{1,2})\b`. -/
def mMonth2 : M Nat := do
  mBound
  mMonthLbl
  mSpaces0
  let n ← mNum 1 2
  mBound
  pure n

/-- Month pattern 3: `\b(\d{1,2})m\b`. -/
def mMonth3 : M Nat := do
  mBound
  let n ← mNum 1 2
  mLit (strL "m")
  mBound
  pure n

/-- Month pattern 4: `\b(?:cm|7m|mid)\b` (OCR-misread tokens). -/
def mMonth4 : M Unit := do
  mBound
  mOr (mLit (strL "cm")) (mOr (mLit (strL "7m")) (mLit (strL "mid")))
  mBound

/-- Month pattern 5: `\b(\d{1,2})\s*\/\s*\d{1,2}\b`. -/
def mMonth5 : M Nat := do
  mBound
  let n ← mNum 1 2
  mSpaces0
  let _ ← mCh (fun c => c = '/')
  mSpaces0
  let _ ← mDigits 1 2
  mBound
  pure n

/-- Month pattern 6: `\b(\d{1,2})\s*-\s*\d{1,2}\b`. -/
def mMonth6 : M Nat := do
  mBound
  let n ← mNum 1 2
  mSpaces0
  let _ ← mCh (fun c => c = '-')
  mSpaces0
  let _ ← mDigits 1 2
  mBound
  pure n

/-- Alternation of the day label `(?:day|d)`. -/
def mDayLbl : M Unit := mOr (mLit (strL "day")) (mLit (strL "d"))

/-- Day pattern 1: `\b(\d{1,2})\s*(?:day|d)\b`. -/
def mDay1 : M Nat := do
  mBound
  let n ← mNum 1 2
  mSpaces0
  mDayLbl
  mBound
  pure n

/-- Day pattern 2: `\b(?:day|d)\s*(\d{1,2})\b`. -/
def mDay2 : M Nat := do
  mBound
  mDayLbl
  mSpaces0
  let n ← mNum 1 2
  mBound
  pure n

/-- Day pattern 3: `\b(\d{1,2})d\b`. -/
def mDay3 : M Nat := do
  mBound
  let n ← mNum 1 2
  mLit (strL "d")
  mBound
  pure n

/-- Day pattern 4: `\b(\d{1,2})\s*\/\s*\d{1,2}\b`. -/
def mDay4 : M Nat := mMonth5

/-- Day pattern 5: `\b(\d{1,2})\s*-\s*\d{1,2}\b`. -/
def mDay5 : M Nat := mMonth6

/-- The month/day cascade step: on a match the captured number is stored
even when out of range (the source assigns before the range test and
only breaks when the test passes). -/
def loopAssign (p : List Char) (lo hi : Nat) : List (M Nat) → Nat → Bool × Nat
  | [], cur => (false, cur)
  | m :: ms, cur =>
    match findFirst m p with
    | some v => if lo ≤ v ∧ v ≤ hi then (true, v) else loopAssign p lo hi ms v
    | none => loopAssign p lo hi ms cur

/-- The month pattern loop of the source (with the `cm|7m|mid` special
case mapping to July). -/
def monthLoop (p : List Char) : Nat :=
  match loopAssign p 1 12 [mMonth1, mMonth2, mMonth3] 0 with
  | (true, v) => v
  | (false, cur) =>
    match findFirst mMonth4 p with
    | some _ => 7
    | none => (loopAssign p 1 12 [mMonth5, mMonth6] cur).2

/-- The day pattern loop of the source. -/
def dayLoop (p : List Char) : Nat :=
  (loopAssign p 1 31 [mDay1, mDay2, mDay3, mDay4, mDay5] 0).2

/-- The blood-pressure cascade step: a match is kept only when its value
is inside the acceptance range; otherwise the current value survives. -/
def loopKeep (p : List Char) (lo hi : Nat) : List (M Nat) → Nat → Nat
  | [], cur => cur
  | m :: ms, cur =>
    match findFirst m p with
    | some v => if lo ≤ v ∧ v ≤ hi then v else loopKeep p lo hi ms cur
    | none => loopKeep p lo hi ms cur

/-- Standalone one-or-two-digit number token `\b(\d{1,2})\b`. -/
def mNum12Tok : M Nat := do
  mBound
  let n ← mNum 1 2
  mBound
  pure n

/-- Standalone two-or-three-digit number token `\b(\d{2,3})\b`. -/
def mNum23Tok : M Nat := do
  mBound
  let n ← mNum 2 3
  mBound
  pure n

/-- Standalone two-digit number token `\b(\d{2})\b`. -/
def mNum2Tok : M Nat := do
  mBound
  let n ← mNum 2 2
  mBound
  pure n

/-- Standalone three-digit number token `\b(\d{3})\b`. -/
def mNum3Tok : M Nat := do
  mBound
  let n ← mNum 3 3
  mBound
  pure n

/-- All values of `text.match(/\b(\d{1,2})\b/g)` mapped through `Number`. -/
def allNums12 (l : List Char) : List Nat := (matchAll mNum12Tok l).map (fun r => r.1)

/-- All values of `text.match(/\b(\d{2,3})\b/g)` mapped through `Number`. -/
def nums23 (l : List Char) : List Nat := (matchAll mNum23Tok l).map (fun r => r.1)

/-- All values of `text.match(/\b(\d{2})\b/g)` mapped through `Number`. -/
def nums2 (l : List Char) : List Nat := (matchAll mNum2Tok l).map (fun r => r.1)

/-- All values of `text.match(/\b(\d{3})\b/g)` mapped through `Number`. -/
def nums3 (l : List Char) : List Nat := (matchAll mNum3Tok l).map (fun r => r.1)

/-- Time-token pattern `\b\d{1,2}:\d{2}\b` (no captures; the source uses
the matched strings). -/
def mColonTok : M Unit := do
  mBound
  let _ ← mDigits 1 2
  let _ ← mCh (fun c => c = ':')
  let _ ← mDigits 2 2
  mBound

/-- Split at the first occurrence of a character. -/
def splitFirst (sep : Char) (l : List Char) : List Char × List Char :=
  (l.takeWhile (fun c => c != sep), (l.dropWhile (fun c => c != sep)).drop 1)

/-- Hour/minute values of every recognized `H:MM` token in the text, as
the source computes them (`split(':').map(Number)` flattened). -/
def timeTokVals (l : List Char) : List Nat :=
  ((matchAll mColonTok l).map (fun r => r.2)).flatMap
    (fun s =>
      let q := splitFirst ':' s
      [jsToNat (jsNumOfStr q.1), jsToNat (jsNumOfStr q.2)])

/-- Insert into an ascending list. -/
def insertAsc (x : Nat) : List Nat → List Nat
  | [] => [x]
  | y :: r => if x ≤ y then x :: y :: r else y :: insertAsc x r

/-- Ascending sort (JS `sort((a, b) => a - b)`). -/
def sortAsc : List Nat → List Nat
  | [] => []
  | x :: r => insertAsc x (sortAsc r)

/-- Descending sort (JS `sort((a, b) => b - a)`). -/
def sortDesc (l : List Nat) : List Nat := (sortAsc l).reverse

/-- The source's date-number comparator: values in month range (1–12)
first, each group ascending. -/
def sortMonthFirst (l : List Nat) : List Nat :=
  sortAsc (l.filter (fun n => decide (1 ≤ n ∧ n ≤ 12)))
    ++ sortAsc (l.filter (fun n => !decide (1 ≤ n ∧ n ≤ 12)))

end Ai

namespace Ai

open Re

/-- Date-token pattern `\b(\d{1,2})[md]\b` (the source consumes the
matched strings of the global match). -/
def mMDTok : M Unit := do
  mBound
  let _ ← mDigits 1 2
  let _ ← mCh (fun c => lowerCh c = 'm' || lowerCh c = 'd')
  mBound

/-- `match.replace(/[md]/i, '')`: drop the first m/d letter. -/
def removeFirstMD : List Char → List Char
  | [] => []
  | c :: r => if lowerCh c = 'm' || lowerCh c = 'd' then r else c :: removeFirstMD r

/-- `match.slice(-1)`: the last character (the token always has one). -/
def lastCh (l : List Char) : Char :=
  match l.getLast? with
  | some c => c
  | none => ' '

/-- First date-recovery pass: fold the `(\d{1,2})[md]` tokens into the
month/day pair exactly as the source's `forEach` does. -/
def recov1Fold : List (List Char) → Nat × Nat → Nat × Nat
  | [], st => st
  | s :: rest, (mo, dy) =>
    let v := jsNumOfStr (removeFirstMD s)
    let ty := lowerCh (lastCh s)
    if ty = 'm' && jsGe v 1 && jsLe v 12 && decide (mo = 0) then
      recov1Fold rest (jsToNat v, dy)
    else if ty = 'd' && jsGe v 1 && jsLe v 31 && decide (dy = 0) then
      recov1Fold rest (mo, jsToNat v)
    else recov1Fold rest (mo, dy)

/-- First date-recovery pass over the text. -/
def recov1 (p : List Char) (st : Nat × Nat) : Nat × Nat :=
  recov1Fold ((matchAll mMDTok p).map (fun r => r.2)) st

/-- Combined pattern `\b(\d{1,2})m\s*(\d{1,2})d\b` (global; only the
matched strings are used by the source). -/
def mCDP1 : M Unit := do
  mBound
  let _ ← mDigits 1 2
  mLit (strL "m")
  mSpaces0
  let _ ← mDigits 1 2
  mLit (strL "d")
  mBound

/-- Combined pattern `\b(\d{1,2})m(\d{1,2})d\b`. -/
def mCDP2 : M Unit := do
  mBound
  let _ ← mDigits 1 2
  mLit (strL "m")
  let _ ← mDigits 1 2
  mLit (strL "d")
  mBound

/-- Combined pattern `\b(\d{1,2})\s*\/\s*(\d{1,2})\b`. -/
def mCDP3 : M Unit := do
  mBound
  let _ ← mDigits 1 2
  mSpaces0
  let _ ← mCh (fun c => c = '/')
  mSpaces0
  let _ ← mDigits 1 2
  mBound

/-- Combined pattern `\b(\d{1,2})-(\d{1,2})\b`. -/
def mCDP4 : M Unit := do
  mBound
  let _ ← mDigits 1 2
  let _ ← mCh (fun c => c = '-')
  let _ ← mDigits 1 2
  mBound

/-- Combined pattern `\b(\d{1,2})\s+(\d{1,2})\b`. -/
def mCDP5 : M Unit := do
  mBound
  let _ ← mDigits 1 2
  mSpaces1
  let _ ← mDigits 1 2
  mBound

/-- One step of the second/combined date pass.  The source calls
`match(pattern)` with a global regex, so `match[1]`/`match[2]` are the
second and third matched strings (not capture groups) fed to `Number`. -/
def cdpTry (p : List Char) (m : M Unit) (st : Nat × Nat) : Option (Nat × Nat) :=
  let ms := (matchAll m p).map (fun r => r.2)
  if ms.isEmpty then none
  else
    let first := jsNumOpt (ms.get? 1)
    let second := jsNumOpt (ms.get? 2)
    if jsGe first 1 && jsLe first 12 && jsGe second 1 && jsLe second 31 then
      some (if st.1 = 0 then jsToNat first else st.1,
            if st.2 = 0 then jsToNat second else st.2)
    else if jsGe second 1 && jsLe second 12 && jsGe first 1 && jsLe first 31 then
      some (if st.1 = 0 then jsToNat second else st.1,
            if st.2 = 0 then jsToNat first else st.2)
    else none

/-- Second date-recovery pass (combined patterns, in order, break on the
first pattern whose numbers pass a range test). -/
def recov2 (p : List Char) (st : Nat × Nat) : Nat × Nat :=
  match cdpTry p mCDP1 st with
  | some st' => st'
  | none =>
    match cdpTry p mCDP2 st with
    | some st' => st'
    | none =>
      match cdpTry p mCDP3 st with
      | some st' => st'
      | none =>
        match cdpTry p mCDP4 st with
        | some st' => st'
        | none =>
          match cdpTry p mCDP5 st with
          | some st' => st'
          | none => st

/-- Third date-recovery pass: leftover 1–31 numbers (time components
excluded), months-first sort, then positional month/day assignment. -/
def recov3 (p : List Char) (st : Nat × Nat) : Nat × Nat :=
  let pot := (allNums12 p).filter (fun n => decide (1 ≤ n ∧ n ≤ 31))
  let tv := timeTokVals p
  let nonTime := pot.filter (fun n => !(tv.contains n))
  if nonTime.length ≥ 2 then
    let sorted := sortMonthFirst nonTime
    let s0 := sorted.getD 0 0
    let s1 := sorted.getD 1 0
    (if st.1 = 0 ∧ 1 ≤ s0 ∧ s0 ≤ 12 then s0 else st.1,
     if st.2 = 0 ∧ 1 ≤ s1 ∧ s1 ≤ 31 then s1 else st.2)
  else st

/-- Date-like pattern `\b(\d{1,2})[\/\-](\d{1,2})\b` (global). -/
def mDLP1 : M Unit := do
  mBound
  let _ ← mDigits 1 2
  let _ ← mCh (fun c => c = '/' || c = '-')
  let _ ← mDigits 1 2
  mBound

/-- Date-like pattern `\b(\d{1,2})\s+(\d{1,2})\b` (global). -/
def mDLP2 : M Unit := mCDP5

/-- One step of the fourth date pass (same global-`match` slot misuse as
`cdpTry`, but only the month-first branch exists in the source). -/
def dlpTry (p : List Char) (m : M Unit) (st : Nat × Nat) : Option (Nat × Nat) :=
  let ms := (matchAll m p).map (fun r => r.2)
  if ms.isEmpty then none
  else
    let first := jsNumOpt (ms.get? 1)
    let second := jsNumOpt (ms.get? 2)
    if jsGe first 1 && jsLe first 12 && jsGe second 1 && jsLe second 31 then
      some (if st.1 = 0 then jsToNat first else st.1,
            if st.2 = 0 then jsToNat second else st.2)
    else none

/-- Fourth date-recovery pass. -/
def recov4 (p : List Char) (st : Nat × Nat) : Nat × Nat :=
  match dlpTry p mDLP1 st with
  | some st' => st'
  | none =>
    match dlpTry p mDLP2 st with
    | some st' => st'
    | none => st

/-- Fifth-pass combined pattern `(\d{1,2})m(\d{1,2})d` (no `\b`, real
captures; the regex has no global flag). -/
def mCP1 : M (Nat × Nat) := do
  let a ← mNum 1 2
  mLit (strL "m")
  let b ← mNum 1 2
  mLit (strL "d")
  pure (a, b)

/-- Fifth-pass combined pattern `(\d{1,2})m\s*(\d{1,2})d`. -/
def mCP2 : M (Nat × Nat) := do
  let a ← mNum 1 2
  mLit (strL "m")
  mSpaces0
  let b ← mNum 1 2
  mLit (strL "d")
  pure (a, b)

/-- Fifth-pass combined pattern `(\d{1,2})\s*m\s*(\d{1,2})\s*d`. -/
def mCP3 : M (Nat × Nat) := do
  let a ← mNum 1 2
  mSpaces0
  mLit (strL "m")
  mSpaces0
  let b ← mNum 1 2
  mSpaces0
  mLit (strL "d")
  pure (a, b)

/-- Month-day pattern `\b(\d{1,2})\s*m\s*(\d{1,2})\s*d\b`. -/
def mMonthDay : M (Nat × Nat) := do
  mBound
  let a ← mNum 1 2
  mSpaces0
  mLit (strL "m")
  mSpaces0
  let b ← mNum 1 2
  mSpaces0
  mLit (strL "d")
  mBound
  pure (a, b)

/-- The fifth pass's loop over `mCP1`–`mCP3`: month/day are overwritten
whenever in range; break once both are set. -/
def cpLoop (p : List Char) : List (M (Nat × Nat)) → Nat × Nat → Nat × Nat
  | [], st => st
  | m :: ms, (mo, dy) =>
    match findFirst m p with
    | some (mv, dv) =>
      let mo' := if 1 ≤ mv ∧ mv ≤ 12 then mv else mo
      let dy' := if 1 ≤ dv ∧ dv ≤ 31 then dv else dy
      if mo' ≠ 0 ∧ dy' ≠ 0 then (mo', dy') else cpLoop p ms (mo', dy')
    | none => cpLoop p ms (mo, dy)

/-- The fifth pass's fixed OCR month/day token table (in source order). -/
def ocrDateTable : List (List Char × Nat) :=
  [(strL "cm", 7), (strL "c1", 7), (strL "c9", 7), (strL "mid", 7),
   (strL "1d", 1), (strL "9d", 9), (strL "13d", 13)]

/-- JS `endsWith` for a single character. -/
def endsWithCh (l : List Char) (c : Char) : Bool :=
  match l.getLast? with
  | some d => d = c
  | none => false

/-- Fold of the OCR date-correction table (no break in the source).  As
in the source, the month branch takes tokens starting with c or equal to
mid, and the day branch takes tokens ending in d — which mid also does,
so with the month already set a text containing mid sets the day. -/
def ocrDateFold (p : List Char) : List (List Char × Nat) → Nat × Nat → Nat × Nat
  | [], st => st
  | (tok, v) :: rest, (mo, dy) =>
    if containsSub p tok then
      if (startsWithL tok (strL "c") = true ∨ tok = strL "mid") ∧ mo = 0 then
        ocrDateFold p rest (v, dy)
      else if endsWithCh tok 'd' = true ∧ dy = 0 then
        ocrDateFold p rest (mo, v)
      else ocrDateFold p rest (mo, dy)
    else ocrDateFold p rest (mo, dy)

/-- Fifth date-recovery pass (runs only when the month is still unset):
misread tokens tm/t1/t2, the 4d context rule, combined captures, the
month-day pattern, then the OCR date table. -/
def recov5 (p : List Char) (st : Nat × Nat) : Nat × Nat :=
  if st.1 ≠ 0 then st
  else
    let mo1 : Nat :=
      if containsSub p (strL "tm") then 7
      else if containsSub p (strL "t1") then 7
      else if containsSub p (strL "t2") then 7
      else 0
    let mo2 : Nat :=
      if mo1 = 0 ∧ containsSub p (strL "4d") then
        match (allNums12 p).filter (fun n => decide (1 ≤ n ∧ n ≤ 12)) with
        | x :: _ => x
        | [] => 7
      else mo1
    let st2 : Nat × Nat :=
      if mo2 = 0 ∧ st.2 = 0 then cpLoop p [mCP1, mCP2, mCP3] (mo2, st.2)
      else (mo2, st.2)
    let st3 : Nat × Nat :=
      if st2.1 = 0 ∨ st2.2 = 0 then
        match findFirst mMonthDay p with
        | some (mv, dv) =>
          (if st2.1 = 0 ∧ 1 ≤ mv ∧ mv ≤ 12 then mv else st2.1,
           if st2.2 = 0 ∧ 1 ≤ dv ∧ dv ≤ 31 then dv else st2.2)
        | none => st2
      else st2
    if st3.1 = 0 ∨ st3.2 = 0 then ocrDateFold p ocrDateTable st3 else st3

/-- Sixth date-recovery pass: any remaining valid numbers, excluding
time components and the (at this point still zero) BP values. -/
def recov6 (p : List Char) (st : Nat × Nat) (sys dia pulse : Nat) : Nat × Nat :=
  let valid := (allNums12 p).filter (fun n => decide (1 ≤ n ∧ n ≤ 31))
  let tv := timeTokVals p
  let bp := [sys, dia, pulse].filter (fun n => n != 0)
  let avail := valid.filter (fun n => !(tv.contains n) && !(bp.contains n))
  if avail.length ≥ 2 then
    let sorted := sortMonthFirst avail
    let s0 := sorted.getD 0 0
    let s1 := sorted.getD 1 0
    (if st.1 = 0 ∧ 1 ≤ s0 ∧ s0 ≤ 12 then s0 else st.1,
     if st.2 = 0 ∧ 1 ≤ s1 ∧ s1 ≤ 31 then s1 else st.2)
  else st

/-- The full date-recovery block (source lines 218–479), entered only
when the month or the day is still unset; at this point of execution
sys, dia and pulse are all still 0, which the caller passes explicitly. -/
def dateRecovery (p : List Char) (month day : Nat) : Nat × Nat :=
  if month ≠ 0 ∧ day ≠ 0 then (month, day)
  else
    let st1 := recov1 p (month, day)
    let st2 := if st1.1 = 0 ∨ st1.2 = 0 then recov2 p st1 else st1
    let st3 := if st2.1 = 0 ∨ st2.2 = 0 then recov3 p st2 else st2
    let st4 := if st3.1 = 0 ∨ st3.2 = 0 then recov4 p st3 else st3
    let st5 := recov5 p st4
    if st5.1 = 0 ∨ st5.2 = 0 then recov6 p st5 0 0 0 else st5

end Ai

namespace Ai

open Re

/-- The `(am|pm)` capture (case-insensitive; the canonical lowercase
characters are exactly what is matched in the lowercased text). -/
def mAmPm : M (List Char) :=
  mOr (do mLit (strL "am"); pure (strL "am")) (do mLit (strL "pm"); pure (strL "pm"))

/-- Time pattern 1: `\b(\d{1,2}):(\d{2})\s*(am|pm)\b`. -/
def mTime1 : M (Nat × Nat × List Char) := do
  mBound
  let h ← mNum 1 2
  let _ ← mCh (fun c => c = ':')
  let m ← mNum 2 2
  mSpaces0
  let ap ← mAmPm
  mBound
  pure (h, m, ap)

/-- Time pattern 2: `\b(\d{1,2}):(\d{2})\b`. -/
def mTime2 : M (Nat × Nat) := do
  mBound
  let h ← mNum 1 2
  let _ ← mCh (fun c => c = ':')
  let m ← mNum 2 2
  mBound
  pure (h, m)

/-- Time pattern 3: `\b(\d{1,2})\s*(am|pm)\b`. -/
def mTime3 : M (Nat × List Char) := do
  mBound
  let h ← mNum 1 2
  mSpaces0
  let ap ← mAmPm
  mBound
  pure (h, ap)

/-- Time pattern 4: `\b(am|pm)\s*(\d{1,2}):(\d{2})\b`. -/
def mTime4 : M (List Char × Nat × List Char) := do
  mBound
  let ap ← mAmPm
  mSpaces0
  let h ← mNum 1 2
  let _ ← mCh (fun c => c = ':')
  let ds ← mDigits 2 2
  mBound
  pure (ap, h, ds)

/-- Time pattern 5: `\b(\d{1,2})\.(\d{2})\s*(am|pm)\b`. -/
def mTime5 : M (Nat × Nat × List Char) := do
  mBound
  let h ← mNum 1 2
  let _ ← mCh (fun c => c = '.')
  let m ← mNum 2 2
  mSpaces0
  let ap ← mAmPm
  mBound
  pure (h, m, ap)

/-- Compose the `HH:MM` string the source builds from two JS numbers. -/
def timeOf (h m : JSNum) : List Char := jsNumPad2 h ++ ':' :: jsNumPad2 m

/-- The main time-pattern loop (source lines 482–501).  A match of three
capture groups takes the am/pm branch (which also sets the period); a
match of two groups only builds the time.  Pattern 3's second group is
`am|pm`, so its `Number` is NaN; pattern 4's first group likewise, and
there the third group (the minute digits) lands in the period. -/
def timeLoop (p : List Char) : List Char × List Char :=
  match findFirst mTime1 p with
  | some (h, m, ap) => (timeOf (jsInt h) (jsInt m), upperL ap)
  | none =>
  match findFirst mTime2 p with
  | some (h, m) => (timeOf (jsInt h) (jsInt m), [])
  | none =>
  match findFirst mTime3 p with
  | some (h, ap) => (timeOf (jsInt h) (jsNumOfStr ap), [])
  | none =>
  match findFirst mTime4 p with
  | some (ap, h, ds) => (timeOf (jsNumOfStr ap) (jsInt h), upperL ds)
  | none =>
  match findFirst mTime5 p with
  | some (h, m, ap) => (timeOf (jsInt h) (jsInt m), upperL ap)
  | none => ([], [])

/-- Time-like pattern `\b(\d{1,2}):(\d{2})\b` (global fallback list). -/
def mTimeLike1 : M Unit := do
  mBound
  let _ ← mDigits 1 2
  let _ ← mCh (fun c => c = ':')
  let _ ← mDigits 2 2
  mBound

/-- Time-like pattern `\b(\d{1,2})\.(\d{2})\b`. -/
def mTimeLike2 : M Unit := do
  mBound
  let _ ← mDigits 1 2
  let _ ← mCh (fun c => c = '.')
  let _ ← mDigits 2 2
  mBound

/-- Time-like pattern `\b(\d{1,2})\s+(\d{2})\b`. -/
def mTimeLike3 : M Unit := do
  mBound
  let _ ← mDigits 1 2
  mSpaces1
  let _ ← mDigits 2 2
  mBound

/-- Time-like pattern `\b(\d{1,2})h(\d{2})m\b`. -/
def mTimeLike4 : M Unit := do
  mBound
  let _ ← mDigits 1 2
  mLit (strL "h")
  let _ ← mDigits 2 2
  mLit (strL "m")
  mBound

/-- The hour of a time-like fallback step: the patterns are global, so
`match[1]` is the second matched string fed to `Number`. -/
def tfHour (p : List Char) (m : M Unit) : JSNum :=
  jsNumOpt (((matchAll m p).map (fun r => r.2)).get? 1)

/-- The minute of a time-like fallback step (`match[2]`, the third
matched string, fed to `Number`). -/
def tfMinute (p : List Char) (m : M Unit) : JSNum :=
  jsNumOpt (((matchAll m p).map (fun r => r.2)).get? 2)

/-- One step of the first time fallback: on any match, the hour/minute
range test gates the assignment. -/
def tfStep (p : List Char) (m : M Unit) (next : List Char) : List Char :=
  if ((matchAll m p).map (fun r => r.2)).isEmpty then next
  else
    if jsGe (tfHour p m) 0 && jsLe (tfHour p m) 23 &&
        jsGe (tfMinute p m) 0 && jsLe (tfMinute p m) 59 then
      timeOf (tfHour p m) (tfMinute p m)
    else next

/-- First time fallback (source lines 504–528). -/
def timeFallback1 (p : List Char) : List Char :=
  tfStep p mTimeLike1
    (tfStep p mTimeLike2 (tfStep p mTimeLike3 (tfStep p mTimeLike4 [])))

/-- First adjacent candidate pair accepted by the second time fallback. -/
def firstHourMinute : List Nat → Option (Nat × Nat)
  | a :: b :: r =>
      if a ≤ 23 ∧ b ≤ 59 then some (a, b) else firstHourMinute (b :: r)
  | _ => none

/-- Second time fallback (source lines 531–548): adjacent 0–23 numbers
read as an hour/minute pair. -/
def timeFallback2 (p : List Char) : List Char :=
  let cands := (allNums12 p).filter (fun n => decide (n ≤ 23))
  if cands.length ≥ 2 then
    match firstHourMinute cands with
    | some (a, b) => timeOf (jsInt a) (jsInt b)
    | none => []
  else []

/-- The whole time stage: pattern loop, then the two fallbacks when the
time is still empty.  Returns the time and the period it may have set. -/
def timeStage (p : List Char) : List Char × List Char :=
  let r := timeLoop p
  let t1 := if r.1.isEmpty then timeFallback1 p else r.1
  let t2 := if t1.isEmpty then timeFallback2 p else t1
  (t2, r.2)

end Ai

namespace Ai

open Re

/-- The systolic label alternation `(?:systolic|sys|s)`. -/
def mSysLbl : M Unit :=
  mOr (mLit (strL "systolic")) (mOr (mLit (strL "sys")) (mLit (strL "s")))

/-- Optional separator `[:-]?`. -/
def mSep : M Unit := do
  let _ ← mOpt (mCh (fun c => c = ':' || c = '-'))
  pure ()

/-- Systolic pattern 1: `\b(?:systolic|sys|s)\s*[:-]?\s*(\d{2,3})\b`. -/
def mSys1 : M Nat := do
  mBound
  mSysLbl
  mSpaces0
  mSep
  mSpaces0
  let n ← mNum 2 3
  mBound
  pure n

/-- Systolic pattern 2: `\b(?:systolic|sys|s)(\d{2,3})\b`. -/
def mSys2 : M Nat := do
  mBound
  mSysLbl
  let n ← mNum 2 3
  mBound
  pure n

/-- Systolic pattern 3: `\b(\d{2,3})\s*\/\s*\d{2,3}\b`. -/
def mSys3 : M Nat := do
  mBound
  let n ← mNum 2 3
  mSpaces0
  let _ ← mCh (fun c => c = '/')
  mSpaces0
  let _ ← mDigits 2 3
  mBound
  pure n

/-- Systolic pattern 4: `\b(\d{2,3})\s*(?:systolic|sys|s)\b`. -/
def mSys4 : M Nat := do
  mBound
  let n ← mNum 2 3
  mSpaces0
  mSysLbl
  mBound
  pure n

/-- The `(?:bp|blood pressure)` alternation. -/
def mBpLbl : M Unit := mOr (mLit (strL "bp")) (mLit (strL "blood pressure"))

/-- Systolic pattern 5: `\b(?:bp|blood pressure)\s*(\d{2,3})\s*\/\s*\d{2,3}\b`. -/
def mSys5 : M Nat := do
  mBound
  mBpLbl
  mSpaces0
  let n ← mNum 2 3
  mSpaces0
  let _ ← mCh (fun c => c = '/')
  mSpaces0
  let _ ← mDigits 2 3
  mBound
  pure n

/-- Systolic pattern 6: `\b(?:top|upper)\s*(\d{2,3})\b`. -/
def mSys6 : M Nat := do
  mBound
  mOr (mLit (strL "top")) (mLit (strL "upper"))
  mSpaces0
  let n ← mNum 2 3
  mBound
  pure n

/-- The systolic cascade (acceptance range 70–250). -/
def sysCascade (p : List Char) : Nat :=
  loopKeep p 70 250 [mSys1, mSys2, mSys3, mSys4, mSys5, mSys6] 0

/-- Correction pattern `sys(\d{2,3})\b` (no leading boundary). -/
def mSC1 : M Nat := do
  mLit (strL "sys")
  let n ← mNum 2 3
  mBound
  pure n

/-- Correction pattern `sys\s*(\d{2,3})\b`. -/
def mSC2 : M Nat := do
  mLit (strL "sys")
  mSpaces0
  let n ← mNum 2 3
  mBound
  pure n

/-- Correction pattern `sys:(\d{2,3})\b`. -/
def mSC3 : M Nat := do
  mLit (strL "sys")
  let _ ← mCh (fun c => c = ':')
  let n ← mNum 2 3
  mBound
  pure n

/-- Correction pattern `sys\s*:\s*(\d{2,3})\b`. -/
def mSC4 : M Nat := do
  mLit (strL "sys")
  mSpaces0
  let _ ← mCh (fun c => c = ':')
  mSpaces0
  let n ← mNum 2 3
  mBound
  pure n

/-- The window search around the first `sys` occurrence (10 characters
before, 10 after the label), for 100–250 numbers. -/
def sysNearby (p : List Char) (cur : Nat) : Nat :=
  if cur = 0 ∨ cur < 100 then
    let i := idxOfSub p (strL "sys")
    let before := jsSubstring p (i - 10) i
    let after := jsSubstring p (i + 3) (i + 13)
    let pot := (nums23 before ++ nums23 after).filter (fun n => decide (100 ≤ n ∧ n ≤ 250))
    pot.headD cur
  else cur

/-- The systolic OCR-correction block (source lines 564–634), entered
when the cascade produced nothing or a value below 100. -/
def sysCorrection (p : List Char) (sys0 : Nat) : Nat :=
  if sys0 = 0 ∨ sys0 < 100 then
    let s1 :=
      if containsSub p (strL "sys") then
        sysNearby p (loopKeep p 100 250 [mSC1, mSC2, mSC3, mSC4] sys0)
      else sys0
    let cands := (nums23 p).filter (fun n => decide (100 ≤ n ∧ n ≤ 250))
    if cands.isEmpty then s1
    else
      match (nums3 p).filter (fun n => decide (100 ≤ n ∧ n ≤ 250)) with
      | x :: _ => x
      | [] => cands.headD s1
  else sys0

/-- The whole systolic stage. -/
def sysStage (p : List Char) : Nat := sysCorrection p (sysCascade p)

/-- The diastolic label alternation `(?:diastolic|dia|d)`. -/
def mDiaLbl : M Unit :=
  mOr (mLit (strL "diastolic")) (mOr (mLit (strL "dia")) (mLit (strL "d")))

/-- Diastolic pattern 1: `\b(?:diastolic|dia|d)\s*[:-]?\s*(\d{2,3})\b`. -/
def mDia1 : M Nat := do
  mBound
  mDiaLbl
  mSpaces0
  mSep
  mSpaces0
  let n ← mNum 2 3
  mBound
  pure n

/-- Diastolic pattern 2: `\b(?:diastolic|dia|d)(\d{2,3})\b`. -/
def mDia2 : M Nat := do
  mBound
  mDiaLbl
  let n ← mNum 2 3
  mBound
  pure n

/-- Diastolic pattern 3: `\b\d{2,3}\s*\/\s*(\d{2,3})\b`. -/
def mDia3 : M Nat := do
  mBound
  let _ ← mDigits 2 3
  mSpaces0
  let _ ← mCh (fun c => c = '/')
  mSpaces0
  let n ← mNum 2 3
  mBound
  pure n

/-- Diastolic pattern 4: `\b(\d{2,3})\s*(?:diastolic|dia|d)\b`. -/
def mDia4 : M Nat := do
  mBound
  let n ← mNum 2 3
  mSpaces0
  mDiaLbl
  mBound
  pure n

/-- Diastolic pattern 5: `\b(?:bp|blood pressure)\s*\d{2,3}\s*\/\s*(\d{2,3})\b`. -/
def mDia5 : M Nat := do
  mBound
  mBpLbl
  mSpaces0
  let _ ← mDigits 2 3
  mSpaces0
  let _ ← mCh (fun c => c = '/')
  mSpaces0
  let n ← mNum 2 3
  mBound
  pure n

/-- Diastolic pattern 6: `\b(?:bottom|lower)\s*(\d{2,3})\b`. -/
def mDia6 : M Nat := do
  mBound
  mOr (mLit (strL "bottom")) (mLit (strL "lower"))
  mSpaces0
  let n ← mNum 2 3
  mBound
  pure n

/-- The diastolic cascade (acceptance range 40–150). -/
def diaCascade (p : List Char) : Nat :=
  loopKeep p 40 150 [mDia1, mDia2, mDia3, mDia4, mDia5, mDia6] 0

/-- Correction pattern `dia(\d{2,3})\b`. -/
def mDC1 : M Nat := do
  mLit (strL "dia")
  let n ← mNum 2 3
  mBound
  pure n

/-- Correction pattern `dia\s*(\d{2,3})\b`. -/
def mDC2 : M Nat := do
  mLit (strL "dia")
  mSpaces0
  let n ← mNum 2 3
  mBound
  pure n

/-- Correction pattern `dia:(\d{2,3})\b`. -/
def mDC3 : M Nat := do
  mLit (strL "dia")
  let _ ← mCh (fun c => c = ':')
  let n ← mNum 2 3
  mBound
  pure n

/-- Correction pattern `dia\s*:\s*(\d{2,3})\b`. -/
def mDC4 : M Nat := do
  mLit (strL "dia")
  mSpaces0
  let _ ← mCh (fun c => c = ':')
  mSpaces0
  let n ← mNum 2 3
  mBound
  pure n

/-- Percentage pattern `\b(\d{2,3})\s*%\b`. -/
def mPct : M Nat := do
  mBound
  let n ← mNum 2 3
  mSpaces0
  let _ ← mCh (fun c => c = '%')
  mBound
  pure n

/-- The diastolic OCR-correction block (source lines 650–710). -/
def diaCorrection (p : List Char) (dia0 : Nat) : Nat :=
  if dia0 = 0 ∨ dia0 < 40 then
    if containsSub p (strL "dia") then
      let d1 := loopKeep p 40 150 [mDC1, mDC2, mDC3, mDC4] dia0
      if d1 = 0 ∨ d1 < 40 then
        let i := idxOfSub p (strL "dia")
        let before := jsSubstring p (i - 10) i
        let after := jsSubstring p (i + 3) (i + 13)
        let pot := (nums23 before ++ nums23 after).filter (fun n => decide (40 ≤ n ∧ n ≤ 150))
        let d2 := pot.headD d1
        if d2 = 0 ∨ d2 < 40 then
          match findFirst mPct p with
          | some v => if 40 ≤ v ∧ v ≤ 150 then v else d2
          | none => d2
        else d2
      else d1
    else dia0
  else dia0

/-- The whole diastolic stage. -/
def diaStage (p : List Char) : Nat := diaCorrection p (diaCascade p)

end Ai

namespace Ai

open Re

/-- Pulse pattern 1: `\b(?:pulse|pul|p)\s*[:-]?\s*(\d{2,3})\s*(?:bpm|min|\/min)\b`. -/
def mPul1 : M Nat := do
  mBound
  mOr (mLit (strL "pulse")) (mOr (mLit (strL "pul")) (mLit (strL "p")))
  mSpaces0
  mSep
  mSpaces0
  let n ← mNum 2 3
  mSpaces0
  mOr (mLit (strL "bpm")) (mOr (mLit (strL "min")) (mLit (strL "/min")))
  mBound
  pure n

/-- Pulse pattern 2: `\b(\d{2,3})\s*(?:bpm|pulse|pul|p)\b`. -/
def mPul2 : M Nat := do
  mBound
  let n ← mNum 2 3
  mSpaces0
  mOr (mLit (strL "bpm")) (mOr (mLit (strL "pulse")) (mOr (mLit (strL "pul")) (mLit (strL "p"))))
  mBound
  pure n

/-- Pulse pattern 3: `\b(?:heart rate|hr)\s*[:-]?\s*(\d{2,3})\b`. -/
def mPul3 : M Nat := do
  mBound
  mOr (mLit (strL "heart rate")) (mLit (strL "hr"))
  mSpaces0
  mSep
  mSpaces0
  let n ← mNum 2 3
  mBound
  pure n

/-- Pulse pattern 4: `\b(\d{2,3})\s*(?:bpm|\/min)\b`. -/
def mPul4 : M Nat := do
  mBound
  let n ← mNum 2 3
  mSpaces0
  mOr (mLit (strL "bpm")) (mLit (strL "/min"))
  mBound
  pure n

/-- Pulse pattern 5: `\b(?:rate|r)\s*(\d{2,3})\b`. -/
def mPul5 : M Nat := do
  mBound
  mOr (mLit (strL "rate")) (mLit (strL "r"))
  mSpaces0
  let n ← mNum 2 3
  mBound
  pure n

/-- The pulse cascade (acceptance range 40–200). -/
def pulseCascade (p : List Char) : Nat :=
  loopKeep p 40 200 [mPul1, mPul2, mPul3, mPul4, mPul5] 0

/-- All three display labels present (`includes` on the normalized text). -/
def hasAllLabels (p : List Char) : Bool :=
  containsSub p (strL "sys") && containsSub p (strL "dia") && containsSub p (strL "pulse")

/-- Standalone numbers used by the positional passes: the 2–3 digit
numbers in the given range, minus recognized time components. -/
def standaloneNums (p : List Char) (lo hi : Nat) : List Nat :=
  let numbers := (nums23 p).filter (fun n => decide (lo ≤ n ∧ n ≤ hi))
  let tv := timeTokVals p
  numbers.filter (fun n => !(tv.contains n))

/-- The deeper coc-correction search (source lines 744–815): window
numbers around `coc` with BP values excluded but falling back to them,
then —with all three labels present— positional and label-area search. -/
def cocDeep (p : List Char) (sys dia : Nat) : Nat :=
  let i := idxOfSub p (strL "coc")
  let before := jsSubstring p (i - 10) i
  let after := jsSubstring p (i + 3) (i + 13)
  let pot := (nums2 before ++ nums2 after).filter (fun n => decide (40 ≤ n ∧ n ≤ 200))
  let bp := [sys, dia].filter (fun n => n != 0)
  let cands := pot.filter (fun n => !(bp.contains n))
  let p1 :=
    match cands with
    | x :: _ => x
    | [] =>
      match pot with
      | x :: _ => x
      | [] => 0
  if p1 = 0 ∧ hasAllLabels p = true then
    let st := standaloneNums p 40 200
    let p2 :=
      if st.length ≥ 3 then
        let third := st.getD 2 0
        if third ≠ sys ∧ third ≠ dia ∧ 40 ≤ third ∧ third ≤ 200 then third else 0
      else 0
    if p2 ≠ 0 then p2
    else
      let j := idxOfSub p (strL "pulse")
      let beforeP := jsSubstring p (j - 20) j
      let afterP := jsSubstring p (j + 5) (j + 25)
      let potP := (nums2 beforeP ++ nums2 afterP).filter (fun n => decide (40 ≤ n ∧ n ≤ 200))
      let candsP := potP.filter (fun n => !(bp.contains n))
      candsP.headD 0
  else p1

/-- The coc-misread correction (source lines 726–816): the fixed lookup
table first (its first entry re-tests the guarding `coc`), then the
window/positional search when the table produced nothing. -/
def cocCorrection (p : List Char) (sys dia pulse0 : Nat) : Nat :=
  if pulse0 = 0 ∧ containsSub p (strL "coc") = true then
    let lk : Nat :=
      if containsSub p (strL "coc") then 71
      else if containsSub p (strL "c0c") then 70
      else if containsSub p (strL "c1c") then 71
      else 0
    if lk ≠ 0 then lk else cocDeep p sys dia
  else pulse0

/-- The whole pulse stage (cascade, then the coc correction, which reads
the systolic and diastolic values computed before it). -/
def pulseStage (p : List Char) (sys dia : Nat) : Nat :=
  cocCorrection p sys dia (pulseCascade p)

/-- Period pattern 1: `\b(am|pm)\b`. -/
def mPer1 : M (List Char) := do
  mBound
  let ap ← mAmPm
  mBound
  pure ap

/-- Period pattern 2: `\b(?:morning|am)\b` (no capture group). -/
def mPer2 : M Unit := do
  mBound
  mOr (mLit (strL "morning")) (mLit (strL "am"))
  mBound

/-- Period pattern 3: `\b(?:afternoon|pm)\b` (no capture group). -/
def mPer3 : M Unit := do
  mBound
  mOr (mLit (strL "afternoon")) (mLit (strL "pm"))
  mBound

/-- Period pattern 4: `\b(?:a\.m\.|p\.m\.)\b` (no capture group). -/
def mPer4 : M Unit := do
  mBound
  mOr (mLit (strL "a.m.")) (mLit (strL "p.m."))
  mBound

/-- The period loop (source lines 819–826).  Only pattern 1 captures;
the other patterns match without a group, so `match[1]` is undefined and
the period becomes the empty string, overwriting any earlier value. -/
def periodLoop (p : List Char) (per0 : List Char) : List Char :=
  match findFirst mPer1 p with
  | some ap => upperL ap
  | none =>
    match findFirst mPer2 p with
    | some _ => []
    | none =>
      match findFirst mPer3 p with
      | some _ => []
      | none =>
        match findFirst mPer4 p with
        | some _ => []
        | none => per0

/-- The standalone numbers the LCD layout override collects (range
40–250, time components removed). -/
def lcdStandalone (p : List Char) : List Nat := standaloneNums p 40 250

/-- The LCD layout override (source lines 830–860): with at least two
standalone numbers, the first becomes systolic, the second diastolic,
and a third (when present) the pulse, replacing any earlier values. -/
def lcdOverride (p : List Char) (sys dia pulse : Nat) : Nat × Nat × Nat :=
  let st := lcdStandalone p
  if st.length ≥ 2 then
    (st.getD 0 0, st.getD 1 0, if st.length ≥ 3 then st.getD 2 0 else pulse)
  else (sys, dia, pulse)

/-- The pulse picked by the generic fallback: the smallest 40–200 number
not already claimed by a nonzero systolic or diastolic value. -/
def pulsePick (p : List Char) (sys dia : Nat) : Option Nat :=
  let pn := (nums23 p).filter (fun n => decide (40 ≤ n ∧ n ≤ 200))
  let bp := [sys, dia].filter (fun n => n != 0)
  let cands := pn.filter (fun n => !(bp.contains n))
  (sortAsc cands).head?

/-- The non-LCD fallback (source lines 862–903): descending-magnitude
systolic/diastolic completion, then the smallest-remaining pulse. -/
def bpFallback (p : List Char) (sys dia pulse : Nat) : Nat × Nat × Nat :=
  let sd :=
    if sys = 0 ∨ dia = 0 then
      let bpN := (nums23 p).filter (fun n => decide (70 ≤ n ∧ n ≤ 250))
      if bpN.length ≥ 2 then
        let sorted := sortDesc bpN
        let s1 := if sys = 0 then sorted.getD 0 0 else sys
        let d1 :=
          if dia = 0 then
            match sorted.find? (fun n => n != s1) with
            | some x => x
            | none => dia
          else dia
        (s1, d1)
      else (sys, dia)
    else (sys, dia)
  let pul :=
    if pulse = 0 then
      match pulsePick p sd.1 sd.2 with
      | some v => v
      | none => pulse
    else pulse
  (sd.1, sd.2, pul)

/-- The mutually exclusive final blood-pressure adjustment: the LCD
override when all three labels are present, the fallback otherwise. -/
def finalBP (p : List Char) (sys dia pulse : Nat) : Nat × Nat × Nat :=
  if hasAllLabels p then lcdOverride p sys dia pulse else bpFallback p sys dia pulse

/-- The validator (source lines 906–914): clamp-or-zero on each numeric
field; `time || ""` and `period || ""` are the identity on strings. -/
def validate (day month : Nat) (time period : List Char) (sys dia pulse : Nat) :
    ExtractionResult where
  day := if 1 ≤ day ∧ day ≤ 31 then day else 0
  month := if 1 ≤ month ∧ month ≤ 12 then month else 0
  time := String.mk time
  period := String.mk period
  sys := if 70 ≤ sys ∧ sys ≤ 250 then sys else 0
  dia := if 40 ≤ dia ∧ dia ≤ 150 then dia else 0
  pulse := if 40 ≤ pulse ∧ pulse ≤ 200 then pulse else 0

/-- The extraction pipeline on character lists, in the source's
execution order.  When date recovery runs, the BP variables are still at
their initial zeros, which is passed explicitly to `dateRecovery`. -/
def extractL (l : List Char) : ExtractionResult :=
  let p := preprocessL l
  let md := dateRecovery p (monthLoop p) (dayLoop p)
  let tp := timeStage p
  let sys1 := sysStage p
  let dia1 := diaStage p
  let pul1 := pulseStage p sys1 dia1
  let per := periodLoop p tp.2
  let bp := finalBP p sys1 dia1 pul1
  validate md.2 md.1 tp.1 per bp.1 bp.2.1 bp.2.2

/-- The source's entry point `extractDataFromText` (the `text || ""`
guard is the identity on actual strings). -/
def extractDataFromText (s : String) : ExtractionResult := extractL s.data

end Ai

namespace Ai

/-- Shape of a time component actually produced by the routine: NaN, or
an exact value below 100 (integer part and hundredth part both two
digits at most). -/
def timeComponentOK (x : JSNum) : Prop :=
  match x with
  | JSNum.nan => True
  | JSNum.fin a b => a ≤ 99 ∧ b ≤ 99

end Ai

open Re Ai

/-- The pipeline is literally the validator applied to the stage outputs. -/
theorem extractL_eq (l : List Char) :
    extractL l =
      validate (dateRecovery (preprocessL l) (monthLoop (preprocessL l)) (dayLoop (preprocessL l))).2
        (dateRecovery (preprocessL l) (monthLoop (preprocessL l)) (dayLoop (preprocessL l))).1
        (timeStage (preprocessL l)).1
        (periodLoop (preprocessL l) (timeStage (preprocessL l)).2)
        (finalBP (preprocessL l) (sysStage (preprocessL l)) (diaStage (preprocessL l))
          (pulseStage (preprocessL l) (sysStage (preprocessL l)) (diaStage (preprocessL l)))).1
        (finalBP (preprocessL l) (sysStage (preprocessL l)) (diaStage (preprocessL l))
          (pulseStage (preprocessL l) (sysStage (preprocessL l)) (diaStage (preprocessL l)))).2.1
        (finalBP (preprocessL l) (sysStage (preprocessL l)) (diaStage (preprocessL l))
          (pulseStage (preprocessL l) (sysStage (preprocessL l)) (diaStage (preprocessL l)))).2.2 :=
  rfl

/-- The entry point is the pipeline on the string's characters. -/
theorem extract_eq_validate (s : String) :
    ∃ (d m : Nat) (t per : List Char) (x y z : Nat),
      extractDataFromText s = validate d m t per x y z :=
  ⟨_, _, _, _, _, _, _, extractL_eq s.data⟩

/-- Day projection of the validator. -/
theorem validate_day (d m : Nat) (t per : List Char) (x y z : Nat) :
    (validate d m t per x y z).day = if 1 ≤ d ∧ d ≤ 31 then d else 0 := rfl

/-- Month projection of the validator. -/
theorem validate_month (d m : Nat) (t per : List Char) (x y z : Nat) :
    (validate d m t per x y z).month = if 1 ≤ m ∧ m ≤ 12 then m else 0 := rfl

/-- Time projection of the validator. -/
theorem validate_time (d m : Nat) (t per : List Char) (x y z : Nat) :
    (validate d m t per x y z).time = String.mk t := rfl

/-- Systolic projection of the validator. -/
theorem validate_sys (d m : Nat) (t per : List Char) (x y z : Nat) :
    (validate d m t per x y z).sys = if 70 ≤ x ∧ x ≤ 250 then x else 0 := rfl

/-- Diastolic projection of the validator. -/
theorem validate_dia (d m : Nat) (t per : List Char) (x y z : Nat) :
    (validate d m t per x y z).dia = if 40 ≤ y ∧ y ≤ 150 then y else 0 := rfl

/-- Pulse projection of the validator. -/
theorem validate_pulse (d m : Nat) (t per : List Char) (x y z : Nat) :
    (validate d m t per x y z).pulse = if 40 ≤ z ∧ z ≤ 200 then z else 0 := rfl

/-- A clamp-or-zero value is the sentinel or in range. -/
theorem clamp_cases (a lo hi : Nat) :
    (if lo ≤ a ∧ a ≤ hi then a else 0) = 0 ∨
      (lo ≤ (if lo ≤ a ∧ a ≤ hi then a else 0) ∧ (if lo ≤ a ∧ a ≤ hi then a else 0) ≤ hi) := by
  split
  · next h => exact Or.inr h
  · exact Or.inl rfl

/-- C1.  For every input string the extraction entry point
`extractDataFromText` is a total function (the embedding needs no
partiality or exception effect anywhere) and returns a record populated
in all seven fields day, month, time, period, sys, dia, pulse. -/
theorem C1_extract_totality (s : String) :
    ∃ (day month : Nat) (time period : String) (sys dia pulse : Nat),
      extractDataFromText s = ⟨day, month, time, period, sys, dia, pulse⟩ :=
  ⟨_, _, _, _, _, _, _, rfl⟩

/-- C2.  For every input string, each numeric field of the extraction
result is either the sentinel 0 or inside its final physiological range:
day 1–31, month 1–12, sys 70–250, dia 40–150, pulse 40–200. -/
theorem C2_range_invariant (s : String) :
    ((extractDataFromText s).day = 0 ∨
      (1 ≤ (extractDataFromText s).day ∧ (extractDataFromText s).day ≤ 31)) ∧
    ((extractDataFromText s).month = 0 ∨
      (1 ≤ (extractDataFromText s).month ∧ (extractDataFromText s).month ≤ 12)) ∧
    ((extractDataFromText s).sys = 0 ∨
      (70 ≤ (extractDataFromText s).sys ∧ (extractDataFromText s).sys ≤ 250)) ∧
    ((extractDataFromText s).dia = 0 ∨
      (40 ≤ (extractDataFromText s).dia ∧ (extractDataFromText s).dia ≤ 150)) ∧
    ((extractDataFromText s).pulse = 0 ∨
      (40 ≤ (extractDataFromText s).pulse ∧ (extractDataFromText s).pulse ≤ 200)) := by
  obtain ⟨d, m, t, per, x, y, z, h⟩ := extract_eq_validate s
  rw [h, validate_day, validate_month, validate_sys, validate_dia, validate_pulse]
  exact ⟨clamp_cases d 1 31, clamp_cases m 1 12, clamp_cases x 70 250,
    clamp_cases y 40 150, clamp_cases z 40 200⟩

/-- C10.  The layout override and the magnitude fallback are mutually
exclusive: when all three labels are present the final adjustment is the
positional override (the fallback code is not consulted), and when a
label is missing it is the fallback (the override code is not consulted). -/
theorem C10_override_fallback_exclusive (p : List Char) (sys dia pulse : Nat) :
    (hasAllLabels p = true →
      finalBP p sys dia pulse = lcdOverride p sys dia pulse) ∧
    (hasAllLabels p = false →
      finalBP p sys dia pulse = bpFallback p sys dia pulse) := by
  constructor <;> intro h <;> simp [finalBP, h]

/-- Witness for C10: a text with all three labels takes the override
branch, and a text missing them takes the fallback branch. -/
theorem C10_override_fallback_exclusive_witness :
    finalBP (strL "sys dia pulse 144 72 76") 0 0 0 =
        lcdOverride (strL "sys dia pulse 144 72 76") 0 0 0 ∧
      finalBP (strL "no labels here") 0 0 0 =
        bpFallback (strL "no labels here") 0 0 0 :=
  ⟨(C10_override_fallback_exclusive (strL "sys dia pulse 144 72 76") 0 0 0).1 (by decide),
    (C10_override_fallback_exclusive (strL "no labels here") 0 0 0).2 (by decide)⟩

/-- C8.  On the spec's date-fallback example the result is exactly
month 7, day 15, time 12:30, period PM, sys 130, dia 85, pulse 70 (the
layout override repairs the pulse value 85 the cascade had taken from
`85 pulse`). -/
theorem C8_date_fallback_example :
    extractDataFromText "7m 15d 12:30 pm sys 130 dia 85 pulse 70" =
      ⟨15, 7, "12:30", "PM", 130, 85, 70⟩ := by decide

/-- C9.  The period patterns `\b(?:morning|am)\b` and
`\b(?:afternoon|pm)\b` have no capture group, so `match[1]` is undefined
and the period becomes the empty string instead of the intended AM/PM:
on the words themselves the routine returns the empty period. -/
theorem C9_period_morning_bug :
    (extractDataFromText "morning").period = "" ∧
      (extractDataFromText "afternoon").period = "" := by decide

/-- C3.  Whenever the normalized text contains the labels sys, dia and
pulse and its standalone 2–3 digit numbers (in the 40–250 window, time
components excluded) are exactly 144, 72, 76 in that order, the result
carries sys 144, dia 72, pulse 76 regardless of what the per-field
cascades produced. -/
theorem C3_layout_override (t : String)
    (h1 : hasAllLabels (preprocessL t.data) = true)
    (h2 : lcdStandalone (preprocessL t.data) = [144, 72, 76]) :
    (extractDataFromText t).sys = 144 ∧ (extractDataFromText t).dia = 72 ∧
      (extractDataFromText t).pulse = 76 := by
  have hov : ∀ s d pl, finalBP (preprocessL t.data) s d pl = (144, 72, 76) := by
    intro s d pl
    simp [finalBP, h1, lcdOverride, h2]
  rw [show extractDataFromText t = extractL t.data from rfl, extractL_eq,
    validate_sys, validate_dia, validate_pulse, hov]
  exact ⟨by decide, by decide, by decide⟩

/-- Witness for C3: a text carrying the three labels and exactly the
numbers 144, 72, 76. -/
theorem C3_layout_override_witness :
    (extractDataFromText "sys dia pulse 144 72 76").sys = 144 ∧
      (extractDataFromText "sys dia pulse 144 72 76").dia = 72 ∧
      (extractDataFromText "sys dia pulse 144 72 76").pulse = 76 :=
  C3_layout_override "sys dia pulse 144 72 76" (by decide) (by decide)

/-- The three-state invariant behind whitespace-collapse idempotence:
re-collapsing an already collapsed string (in either run state) changes
nothing. -/
theorem collapseWSAux_idem (l : List Char) :
    collapseWSAux false (collapseWSAux false l) = collapseWSAux false l ∧
      collapseWSAux false (collapseWSAux true l) = collapseWSAux true l ∧
      collapseWSAux true (collapseWSAux true l) = collapseWSAux true l := by
  induction l with
  | nil => exact ⟨rfl, rfl, rfl⟩
  | cons c r ih =>
    have hsp : isSpaceCh ' ' = true := rfl
    by_cases hc : isSpaceCh c = true
    · refine ⟨?_, ?_, ?_⟩ <;>
        simp [collapseWSAux, hc, hsp, ih.1, ih.2.1, ih.2.2]
    · refine ⟨?_, ?_, ?_⟩ <;>
        simp [collapseWSAux, hc, ih.1, ih.2.1, ih.2.2]

/-- C4 (counterexample).  Normalization is not idempotent: on `d01` the
first pass splits the label from the number (`d 01`) and only the second
pass strips the exposed leading zero (`d 1`). -/
theorem C4_normalize_not_idempotent :
    preprocessText (preprocessText "d01") ≠ preprocessText "d01" := by decide

/-- C4 (amended).  The whitespace-collapse stage of the normalizer is
idempotent; the full normalizer is not, because noise stripping inserts
spaces after the collapse and the label-splitting rules expose leading
zeros that only the next pass rewrites. -/
theorem C4_collapse_idempotent (l : List Char) :
    collapseWS (collapseWS l) = collapseWS l :=
  (collapseWSAux_idem l).1

/-- The non-LCD fallback never changes an already found systolic value. -/
theorem bpFallback_sys_keep (p : List Char) (s d pl : Nat) (hs : s ≠ 0) :
    (bpFallback p s d pl).1 = s := by
  simp only [bpFallback]
  split_ifs <;> simp [hs]

/-- A cascade whose first pattern matches an in-range value returns it. -/
theorem loopKeep_first (p : List Char) (lo hi : Nat) (m : M Nat) (ms : List (M Nat))
    (cur v : Nat) (h : findFirst m p = some v) (hr : lo ≤ v ∧ v ≤ hi) :
    loopKeep p lo hi (m :: ms) cur = v := by
  simp only [loopKeep, h]
  exact if_pos hr

/-- The systolic correction pass is skipped for values of 100 and more. -/
theorem sysCorrection_high (p : List Char) (v : Nat) (h : 100 ≤ v) :
    sysCorrection p v = v := by
  unfold sysCorrection
  rw [if_neg (by omega : ¬(v = 0 ∨ v < 100))]

/-- C5 (counterexample).  The labeled systolic pattern captures 85 (in
the acceptance range 70–250), the unrelated number 120 is far from every
label, yet the correction pass overrides the labeled value: the result
is sys 120, not 85. -/
theorem C5_label_priority_cex :
    findFirst mSys1 (preprocessL (strL "sys 85 qqqq wwww 120")) = some 85 ∧
      (extractDataFromText "sys 85 qqqq wwww 120").sys = 120 := by decide

/-- C5 (amended).  The labeled systolic value wins over any unrelated
number provided it is at least 100 (below 100 the correction pass may
replace it) and the three LCD labels are not all present (otherwise the
layout override replaces it): if the first systolic pattern captures
`v` with 100 ≤ v ≤ 250, the result's sys equals v. -/
theorem C5_label_priority_amended (t : String) (v : Nat)
    (h1 : findFirst mSys1 (preprocessL t.data) = some v)
    (h2 : 100 ≤ v) (h3 : v ≤ 250)
    (h4 : hasAllLabels (preprocessL t.data) = false) :
    (extractDataFromText t).sys = v := by
  have hstage : sysStage (preprocessL t.data) = v := by
    have hcas : sysCascade (preprocessL t.data) = v :=
      loopKeep_first _ 70 250 _ _ 0 v h1 ⟨by omega, h3⟩
    rw [sysStage, hcas, sysCorrection_high _ v h2]
  rw [show extractDataFromText t = extractL t.data from rfl, extractL_eq, validate_sys,
    show ∀ pl, finalBP (preprocessL t.data) (sysStage (preprocessL t.data))
        (diaStage (preprocessL t.data)) pl =
        bpFallback (preprocessL t.data) (sysStage (preprocessL t.data))
          (diaStage (preprocessL t.data)) pl from fun pl => by simp [finalBP, h4],
    bpFallback_sys_keep _ _ _ _ (by omega : sysStage (preprocessL t.data) ≠ 0), hstage]
  exact if_pos ⟨by omega, h3⟩

/-- Witness for C5: the labeled value 130 survives both the correction
pass and the fallback. -/
theorem C5_label_priority_witness :
    (extractDataFromText "sys 130 qqqq wwww 120").sys = 130 :=
  C5_label_priority_amended "sys 130 qqqq wwww 120" 130 (by decide) (by decide)
    (by decide) (by decide)

/-- Membership in an insertion step. -/
theorem mem_insertAsc {x y : Nat} {l : List Nat} :
    y ∈ insertAsc x l ↔ y = x ∨ y ∈ l := by
  induction l with
  | nil => simp [insertAsc]
  | cons a r ih =>
    by_cases h : x ≤ a
    · simp [insertAsc, h]
    · simp [insertAsc, h, ih]
      tauto

/-- Sorting preserves membership. -/
theorem mem_sortAsc {y : Nat} {l : List Nat} : y ∈ sortAsc l ↔ y ∈ l := by
  induction l with
  | nil => simp [sortAsc]
  | cons a r ih => simp [sortAsc, mem_insertAsc, ih]

/-- C6 (counterexample).  On `s 71 coc` the cascade assigns sys 71 and
the coc-misread lookup then assigns the same 71 to pulse: a number
already assigned to systolic is assigned to pulse by a fallback pass. -/
theorem C6_exclusion_cex :
    (extractDataFromText "s 71 coc").sys = 71 ∧
      (extractDataFromText "s 71 coc").pulse = 71 := by decide

/-- C6 (amended).  The generic pulse fallback does exclude the systolic
and diastolic values: whatever it picks differs from both (the
coc-misread lookup table, by contrast, can duplicate them, as the
counterexample shows). -/
theorem C6_exclusion_amended (p : List Char) (sys dia v : Nat)
    (h : pulsePick p sys dia = some v) : v ≠ sys ∧ v ≠ dia := by
  simp only [pulsePick] at h
  have hv : v ∈ sortAsc ((((nums23 p).filter
      (fun n => decide (40 ≤ n ∧ n ≤ 200))).filter
        (fun n => !(([sys, dia].filter (fun n => n != 0)).contains n)))) :=
    List.mem_of_mem_head? (Option.mem_def.mpr h)
  have hv2 := mem_sortAsc.1 hv
  have hrange : 40 ≤ v := by
    have := List.of_mem_filter (List.mem_filter.1 hv2).1
    simp at this
    omega
  have hcond := (List.mem_filter.1 hv2).2
  simp [List.contains] at hcond
  rcases hcond with ⟨ha, hb⟩ | h0
  · exact ⟨ha, hb⟩
  · omega

/-- Witness for C6: with sys 120 and dia 85 claimed, the fallback picks
95 and indeed avoids both. -/
theorem C6_exclusion_witness :
    pulsePick (strL "120 85 95") 120 85 = some 95 ∧ (95 ≠ 120 ∧ 95 ≠ 85) :=
  ⟨by decide, C6_exclusion_amended (strL "120 85 95") 120 85 95 (by decide)⟩

/-- The matcher monad's bind is list flat-map over candidates. -/
theorem M_bind_eq (x : M α) (f : α → M β) (p : Pos) :
    (x >>= f) p = (x p).flatMap (fun r => f r.1 r.2) := rfl

/-- Decompose membership in a bound matcher. -/
theorem M_mem_bind {x : M α} {f : α → M β} {r : β × Pos} {p : Pos}
    (h : r ∈ (x >>= f) p) : ∃ a q, (a, q) ∈ x p ∧ r ∈ f a q := by
  rw [M_bind_eq] at h
  obtain ⟨⟨a, q⟩, hm, hr⟩ := List.mem_flatMap.1 h
  exact ⟨a, q, hm, hr⟩

/-- Membership in a pure matcher pins the result. -/
theorem M_mem_pure {a : α} {r : α × Pos} {p : Pos}
    (h : r ∈ (pure a : M α) p) : r = (a, p) := by
  have he : (pure a : M α) p = [(a, p)] := rfl
  rw [he] at h
  exact List.mem_singleton.1 h

/-- Membership in an alternation comes from one branch. -/
theorem M_mem_or {x y : M α} {r : α × Pos} {p : Pos} (h : r ∈ mOr x y p) :
    r ∈ x p ∨ r ∈ y p := by
  unfold mOr at h
  exact List.mem_append.1 h

/-- Every digit-prefix split respects the length bound and digit class. -/
theorem digitSplits_spec : ∀ (n : Nat) (pv : Option Char) (l ds : List Char) (q : Pos),
    (ds, q) ∈ digitSplits pv l n → ds.length ≤ n ∧ ds.all isDigitCh = true := by
  intro n
  induction n with
  | zero =>
    intro pv l ds q h
    simp [digitSplits] at h
    rw [h.1]
    simp
  | succ n ih =>
    intro pv l ds q h
    cases l with
    | nil =>
      simp [digitSplits] at h
      rw [h.1]
      simp
    | cons c r =>
      simp only [digitSplits] at h
      by_cases hc : isDigitCh c = true
      · rw [if_pos hc] at h
        rcases List.mem_cons.1 h with he | hm
        · have : ds = [] := congrArg Prod.fst he
          rw [this]
          simp
        · obtain ⟨⟨ds2, q2⟩, hm2, he⟩ := List.mem_map.1 hm
          have hds : ds = c :: ds2 := (congrArg Prod.fst he).symm
          have hspec := ih (some c) r ds2 q2 hm2
          rw [hds]
          refine ⟨by simp; omega, ?_⟩
          simp [List.all_cons, hc, hspec.2]
      · rw [if_neg hc] at h
        have : ds = [] := congrArg Prod.fst (List.mem_singleton.1 h)
        rw [this]
        simp

/-- Folding digits from any accumulator stays under the obvious bound. -/
theorem parseDigits_fold_bound : ∀ (ds : List Char) (acc : Nat),
    ds.all isDigitCh = true →
    ds.foldl (fun a c => 10 * a + (c.toNat - 48)) acc < (acc + 1) * 10 ^ ds.length := by
  intro ds
  induction ds with
  | nil =>
    intro acc h
    simp
  | cons c r ih =>
    intro acc h
    simp only [List.all_cons, Bool.and_eq_true] at h
    have hd : c.toNat - 48 ≤ 9 := by
      have hc := h.1
      simp [isDigitCh] at hc
      omega
    have hr := ih (10 * acc + (c.toNat - 48)) h.2
    have h1 : (10 * acc + (c.toNat - 48) + 1) * 10 ^ r.length ≤ (acc + 1) * 10 ^ (r.length + 1) := by
      have h2 : 10 * acc + (c.toNat - 48) + 1 ≤ 10 * (acc + 1) := by omega
      calc (10 * acc + (c.toNat - 48) + 1) * 10 ^ r.length
          ≤ 10 * (acc + 1) * 10 ^ r.length := Nat.mul_le_mul_right _ h2
        _ = (acc + 1) * 10 ^ (r.length + 1) := by ring
    simp only [List.foldl_cons, List.length_cons]
    exact lt_of_lt_of_le hr h1

/-- The value of a digit string is below ten to its length. -/
theorem parseDigits_lt (ds : List Char) (h : ds.all isDigitCh = true) :
    parseDigits ds < 10 ^ ds.length := by
  have := parseDigits_fold_bound ds 0 h
  simpa [parseDigits] using this

/-- Every candidate of a bounded digit capture is below ten to the upper
bound. -/
theorem M_mem_mNum {lo hi : Nat} {r : Nat × Pos} {p : Pos} (h : r ∈ mNum lo hi p) :
    r.1 < 10 ^ hi := by
  unfold mNum at h
  obtain ⟨⟨ds, q⟩, hm, he⟩ := List.mem_map.1 h
  unfold mDigits at hm
  have hds := List.mem_filter.1 hm
  have hrev := List.mem_reverse.1 hds.1
  have hspec := digitSplits_spec hi p.1 p.2 ds q hrev
  have hval : r.1 = parseDigits ds := (congrArg Prod.fst he).symm
  rw [hval]
  calc parseDigits ds < 10 ^ ds.length := parseDigits_lt ds hspec.2
    _ ≤ 10 ^ hi := Nat.pow_le_pow_right (by omega) hspec.1

/-- Two-digit-capped captures are at most 99. -/
theorem M_mem_mNum_le99 {lo : Nat} {r : Nat × Pos} {p : Pos} (h : r ∈ mNum lo 2 p) :
    r.1 ≤ 99 := by
  have := M_mem_mNum h
  norm_num at this
  omega

/-- The engine's committed match at a position is one of its candidates. -/
theorem runHead_mem {m : M α} {p : Pos} {r : α × Pos} (h : runHead m p = some r) :
    r ∈ m p := by
  unfold runHead at h
  cases hm : m p with
  | nil => rw [hm] at h; simp at h
  | cons a t =>
    rw [hm] at h
    simp at h
    rw [← h]
    exact List.mem_cons_self a t

/-- A leftmost match is a candidate of the matcher at some position. -/
theorem findFirstAux_mem {m : M α} : ∀ {l : List Char} {pv : Option Char} {r : α × Pos},
    findFirstAux m pv l = some r → ∃ q : Pos, r ∈ m q := by
  intro l
  induction l with
  | nil =>
    intro pv r h
    rw [findFirstAux] at h
    exact ⟨(pv, []), runHead_mem h⟩
  | cons c t ih =>
    intro pv r h
    rw [findFirstAux] at h
    cases hr : runHead m (pv, c :: t) with
    | some r2 =>
      rw [hr] at h
      simp at h
      exact ⟨(pv, c :: t), h ▸ runHead_mem hr⟩
    | none =>
      rw [hr] at h
      exact ih h

/-- A `findFirst` capture comes from a candidate of the matcher. -/
theorem findFirst_mem {m : M α} {l : List Char} {a : α} (h : findFirst m l = some a) :
    ∃ q qf : Pos, (a, qf) ∈ m q := by
  unfold findFirst at h
  cases heq : findFirstAux m none l with
  | none => rw [heq] at h; simp at h
  | some r =>
    rw [heq] at h
    simp at h
    obtain ⟨q, hq⟩ := findFirstAux_mem heq
    refine ⟨q, r.2, ?_⟩
    rw [← h]
    simpa using hq

/-- An am/pm capture is the literal am or pm. -/
theorem mAmPm_val {r : List Char × Pos} {p : Pos} (h : r ∈ mAmPm p) :
    r.1 = strL "am" ∨ r.1 = strL "pm" := by
  unfold mAmPm at h
  rcases M_mem_or h with h | h
  · obtain ⟨_, q, -, h⟩ := M_mem_bind h
    rw [M_mem_pure h]
    exact Or.inl rfl
  · obtain ⟨_, q, -, h⟩ := M_mem_bind h
    rw [M_mem_pure h]
    exact Or.inr rfl

/-- Bounds of the first time pattern's captures. -/
theorem mTime1_bounds {r : (Nat × Nat × List Char) × Pos} {p : Pos}
    (h : r ∈ mTime1 p) : r.1.1 ≤ 99 ∧ r.1.2.1 ≤ 99 := by
  unfold mTime1 at h
  obtain ⟨_, q1, -, h⟩ := M_mem_bind h
  obtain ⟨hv, q2, hh, h⟩ := M_mem_bind h
  obtain ⟨_, q3, -, h⟩ := M_mem_bind h
  obtain ⟨mv, q4, hm, h⟩ := M_mem_bind h
  obtain ⟨_, q5, -, h⟩ := M_mem_bind h
  obtain ⟨ap, q6, -, h⟩ := M_mem_bind h
  obtain ⟨_, q7, -, h⟩ := M_mem_bind h
  rw [M_mem_pure h]
  exact ⟨M_mem_mNum_le99 hh, M_mem_mNum_le99 hm⟩

/-- Bounds of the second time pattern's captures. -/
theorem mTime2_bounds {r : (Nat × Nat) × Pos} {p : Pos}
    (h : r ∈ mTime2 p) : r.1.1 ≤ 99 ∧ r.1.2 ≤ 99 := by
  unfold mTime2 at h
  obtain ⟨_, q1, -, h⟩ := M_mem_bind h
  obtain ⟨hv, q2, hh, h⟩ := M_mem_bind h
  obtain ⟨_, q3, -, h⟩ := M_mem_bind h
  obtain ⟨mv, q4, hm, h⟩ := M_mem_bind h
  obtain ⟨_, q5, -, h⟩ := M_mem_bind h
  rw [M_mem_pure h]
  exact ⟨M_mem_mNum_le99 hh, M_mem_mNum_le99 hm⟩

/-- Bounds and am/pm shape of the third time pattern's captures. -/
theorem mTime3_spec {r : (Nat × List Char) × Pos} {p : Pos}
    (h : r ∈ mTime3 p) : r.1.1 ≤ 99 ∧ (r.1.2 = strL "am" ∨ r.1.2 = strL "pm") := by
  unfold mTime3 at h
  obtain ⟨_, q1, -, h⟩ := M_mem_bind h
  obtain ⟨hv, q2, hh, h⟩ := M_mem_bind h
  obtain ⟨_, q3, -, h⟩ := M_mem_bind h
  obtain ⟨ap, q4, hap, h⟩ := M_mem_bind h
  obtain ⟨_, q5, -, h⟩ := M_mem_bind h
  rw [M_mem_pure h]
  exact ⟨M_mem_mNum_le99 hh, mAmPm_val hap⟩

/-- Bounds and am/pm shape of the fourth time pattern's captures. -/
theorem mTime4_spec {r : (List Char × Nat × List Char) × Pos} {p : Pos}
    (h : r ∈ mTime4 p) :
    (r.1.1 = strL "am" ∨ r.1.1 = strL "pm") ∧ r.1.2.1 ≤ 99 := by
  unfold mTime4 at h
  obtain ⟨_, q1, -, h⟩ := M_mem_bind h
  obtain ⟨ap, q2, hap, h⟩ := M_mem_bind h
  obtain ⟨_, q3, -, h⟩ := M_mem_bind h
  obtain ⟨hv, q4, hh, h⟩ := M_mem_bind h
  obtain ⟨_, q5, -, h⟩ := M_mem_bind h
  obtain ⟨ds, q6, -, h⟩ := M_mem_bind h
  obtain ⟨_, q7, -, h⟩ := M_mem_bind h
  rw [M_mem_pure h]
  exact ⟨mAmPm_val hap, M_mem_mNum_le99 hh⟩

/-- Bounds of the fifth time pattern's captures. -/
theorem mTime5_bounds {r : (Nat × Nat × List Char) × Pos} {p : Pos}
    (h : r ∈ mTime5 p) : r.1.1 ≤ 99 ∧ r.1.2.1 ≤ 99 := by
  unfold mTime5 at h
  obtain ⟨_, q1, -, h⟩ := M_mem_bind h
  obtain ⟨hv, q2, hh, h⟩ := M_mem_bind h
  obtain ⟨_, q3, -, h⟩ := M_mem_bind h
  obtain ⟨mv, q4, hm, h⟩ := M_mem_bind h
  obtain ⟨_, q5, -, h⟩ := M_mem_bind h
  obtain ⟨ap, q6, -, h⟩ := M_mem_bind h
  obtain ⟨_, q7, -, h⟩ := M_mem_bind h
  rw [M_mem_pure h]
  exact ⟨M_mem_mNum_le99 hh, M_mem_mNum_le99 hm⟩

/-- The hundredth part of a short fractional string is below 100. -/
theorem fracVal_le (fp : List Char) (hd : fp.all isDigitCh = true)
    (hl : fp.length ≤ 2) : fracVal fp ≤ 99 := by
  have hfp : parseDigits fp < 10 ^ fp.length := parseDigits_lt fp hd
  unfold fracVal
  split_ifs with h4
  · rw [h4] at hfp
    simp at hfp
    omega
  · have hlt : parseDigits fp < 100 := by
      calc parseDigits fp < 10 ^ fp.length := hfp
        _ ≤ 10 ^ 2 := Nat.pow_le_pow_right (by omega) hl
        _ = 100 := by norm_num
    omega

/-- Every finite number `Number` produces here has at most two fractional
digits (its hundredth part is below 100). -/
theorem jsNumOfStr_fin_b {l : List Char} {a b : Nat}
    (h : jsNumOfStr l = JSNum.fin a b) : b ≤ 99 := by
  simp only [jsNumOfStr] at h
  split_ifs at h with h1 h2
  · unfold jsInt at h
    injection h with ha hb
    omega
  · unfold jsInt at h
    injection h with ha hb
    omega
  · split at h
    · next ip fp _ =>
      split_ifs at h with h3
      · simp only [Bool.and_eq_true, decide_eq_true_eq] at h3
        injection h with ha hb
        rw [← hb]
        exact fracVal_le fp h3.1.2 h3.2
    · simp at h

/-- The same bound for a possibly absent string. -/
theorem jsNumOpt_fin_b {o : Option (List Char)} {a b : Nat}
    (h : jsNumOpt o = JSNum.fin a b) : b ≤ 99 := by
  cases o with
  | none => simp [jsNumOpt] at h
  | some s => exact jsNumOfStr_fin_b (by simpa [jsNumOpt] using h)

/-- A finite number passing the JS upper-bound test has that bound on
its integer part. -/
theorem jsLe_fin_le {a b k : Nat} (h : jsLe (JSNum.fin a b) k = true) : a ≤ k := by
  simp [jsLe] at h
  rcases h with h | ⟨h, -⟩ <;> omega

/-- NaN fails every JS lower-bound test. -/
theorem jsGe_ne_nan {x : JSNum} {k : Nat} (h : jsGe x k = true) : x ≠ JSNum.nan := by
  cases x with
  | nan => simp [jsGe] at h
  | fin a b => simp

/-- The time strings the routine builds are never empty. -/
theorem timeOf_isEmpty (h m : JSNum) : (timeOf h m).isEmpty = false := by
  unfold timeOf
  cases jsNumPad2 h <;> rfl

/-- The adjacent-pair scan only accepts in-range hour/minute pairs. -/
theorem firstHourMinute_bounds : ∀ (l : List Nat) (a b : Nat),
    firstHourMinute l = some (a, b) → a ≤ 23 ∧ b ≤ 59 := by
  intro l
  induction l with
  | nil => intro a b h; simp [firstHourMinute] at h
  | cons x t ih =>
    intro a b h
    cases t with
    | nil => simp [firstHourMinute] at h
    | cons y r =>
      simp only [firstHourMinute] at h
      split_ifs at h with hc
      · simp at h
        omega
      · exact ih a b h

/-- One fallback step preserves the time-shape invariant. -/
theorem tfStep_shape (p : List Char) (m : M Unit) (next : List Char)
    (hn : next = [] ∨ ∃ h mn, timeComponentOK h ∧ timeComponentOK mn ∧ next = timeOf h mn) :
    tfStep p m next = [] ∨
      ∃ h mn, timeComponentOK h ∧ timeComponentOK mn ∧ tfStep p m next = timeOf h mn := by
  unfold tfStep
  split_ifs with h1 h2
  · exact hn
  · right
    simp only [Bool.and_eq_true] at h2
    obtain ⟨⟨⟨hg1, hl1⟩, hg2⟩, hl2⟩ := h2
    rcases hH : tfHour p m with _ | ⟨a, b⟩
    · rw [hH] at hg1; simp [jsGe] at hg1
    rcases hM : tfMinute p m with _ | ⟨a2, b2⟩
    · rw [hM] at hg2; simp [jsGe] at hg2
    rw [hH] at hl1
    rw [hM] at hl2
    refine ⟨JSNum.fin a b, JSNum.fin a2 b2, ?_, ?_, rfl⟩
    · exact ⟨by have := jsLe_fin_le hl1; omega, jsNumOpt_fin_b hH⟩
    · exact ⟨by have := jsLe_fin_le hl2; omega, jsNumOpt_fin_b hM⟩
  · exact hn

/-- The whole first time fallback respects the time shape. -/
theorem timeFallback1_shape (p : List Char) :
    timeFallback1 p = [] ∨
      ∃ h mn, timeComponentOK h ∧ timeComponentOK mn ∧ timeFallback1 p = timeOf h mn :=
  tfStep_shape p _ _ (tfStep_shape p _ _ (tfStep_shape p _ _ (tfStep_shape p _ _ (Or.inl rfl))))

/-- The second time fallback respects the time shape. -/
theorem timeFallback2_shape (p : List Char) :
    timeFallback2 p = [] ∨
      ∃ h mn, timeComponentOK h ∧ timeComponentOK mn ∧ timeFallback2 p = timeOf h mn := by
  simp only [timeFallback2]
  split_ifs with h1
  · cases hfm : firstHourMinute ((allNums12 p).filter (fun n => decide (n ≤ 23))) with
    | none => exact Or.inl rfl
    | some r =>
      obtain ⟨a, b⟩ := r
      have hb := firstHourMinute_bounds _ a b hfm
      exact Or.inr ⟨jsInt a, jsInt b, ⟨by omega, by omega⟩, ⟨by omega, by omega⟩, rfl⟩
  · exact Or.inl rfl

/-- The main time-pattern loop respects the time shape. -/
theorem timeLoop_time_shape (p : List Char) :
    (timeLoop p).1 = [] ∨
      ∃ h mn, timeComponentOK h ∧ timeComponentOK mn ∧ (timeLoop p).1 = timeOf h mn := by
  cases h1 : findFirst mTime1 p with
  | some r =>
    obtain ⟨hv, mv, ap⟩ := r
    obtain ⟨q, qf, hmem⟩ := findFirst_mem h1
    have hb := mTime1_bounds hmem
    exact Or.inr ⟨jsInt hv, jsInt mv, ⟨hb.1, by omega⟩, ⟨hb.2, by omega⟩,
      by simp [timeLoop, h1]⟩
  | none =>
  cases h2 : findFirst mTime2 p with
  | some r =>
    obtain ⟨hv, mv⟩ := r
    obtain ⟨q, qf, hmem⟩ := findFirst_mem h2
    have hb := mTime2_bounds hmem
    exact Or.inr ⟨jsInt hv, jsInt mv, ⟨hb.1, by omega⟩, ⟨hb.2, by omega⟩,
      by simp [timeLoop, h1, h2]⟩
  | none =>
  cases h3 : findFirst mTime3 p with
  | some r =>
    obtain ⟨hv, ap⟩ := r
    obtain ⟨q, qf, hmem⟩ := findFirst_mem h3
    have hb := mTime3_spec hmem
    simp only [] at hb
    have hnan : jsNumOfStr ap = JSNum.nan := by
      rcases hb.2 with he | he <;> rw [he] <;> decide
    refine Or.inr ⟨jsInt hv, jsNumOfStr ap, ⟨hb.1, by omega⟩, ?_, by simp [timeLoop, h1, h2, h3]⟩
    rw [hnan]
    trivial
  | none =>
  cases h4 : findFirst mTime4 p with
  | some r =>
    obtain ⟨ap, hv, ds⟩ := r
    obtain ⟨q, qf, hmem⟩ := findFirst_mem h4
    have hb := mTime4_spec hmem
    simp only [] at hb
    have hnan : jsNumOfStr ap = JSNum.nan := by
      rcases hb.1 with he | he <;> rw [he] <;> decide
    refine Or.inr ⟨jsNumOfStr ap, jsInt hv, ?_, ⟨hb.2, by omega⟩, by simp [timeLoop, h1, h2, h3, h4]⟩
    rw [hnan]
    trivial
  | none =>
  cases h5 : findFirst mTime5 p with
  | some r =>
    obtain ⟨hv, mv, ap⟩ := r
    obtain ⟨q, qf, hmem⟩ := findFirst_mem h5
    have hb := mTime5_bounds hmem
    exact Or.inr ⟨jsInt hv, jsInt mv, ⟨hb.1, by omega⟩, ⟨hb.2, by omega⟩,
      by simp [timeLoop, h1, h2, h3, h4, h5]⟩
  | none =>
    exact Or.inl (by simp [timeLoop, h1, h2, h3, h4, h5])

/-- The whole time stage respects the time shape. -/
theorem timeStage_time_shape (p : List Char) :
    (timeStage p).1 = [] ∨
      ∃ h mn, timeComponentOK h ∧ timeComponentOK mn ∧ (timeStage p).1 = timeOf h mn := by
  simp only [timeStage]
  rcases timeLoop_time_shape p with h0 | ⟨h, mn, o1, o2, heq⟩
  · rw [h0]
    simp only [List.isEmpty_nil, if_true]
    rcases timeFallback1_shape p with hf1 | ⟨h, mn, o1, o2, heq⟩
    · rw [hf1]
      simp only [List.isEmpty_nil, if_true]
      exact timeFallback2_shape p
    · exact Or.inr ⟨h, mn, o1, o2, by simp [heq, timeOf_isEmpty]⟩
  · exact Or.inr ⟨h, mn, o1, o2, by simp [heq, timeOf_isEmpty]⟩

/-- C7 (counterexample).  The time field is not always a valid HH:MM
clock time: pattern 1 accepts out-of-range components (45:99), and a
bare hour with am/pm goes through the two-group branch whose minute is
`Number("pm")`, rendering as NaN. -/
theorem C7_time_shape_cex :
    (extractDataFromText "45:99 am").time = "45:99" ∧
      (extractDataFromText "7 pm").time = "07:NaN" := by decide

/-- C7 (amended).  The time field is either empty or of the form
`H:M` where each component is the JS rendering of the captured number:
a two-digit-padded integer at most 99 (valid 00–23/00–59 only in the
fallback paths), a decimal with at most two fractional digits, or the
literal NaN. -/
theorem C7_time_shape_amended (s : String) :
    (extractDataFromText s).time = "" ∨
      ∃ h m : JSNum, timeComponentOK h ∧ timeComponentOK m ∧
        (extractDataFromText s).time = String.mk (timeOf h m) := by
  rw [show extractDataFromText s = extractL s.data from rfl, extractL_eq, validate_time]
  rcases timeStage_time_shape (preprocessL s.data) with h0 | ⟨h, m, o1, o2, heq⟩
  · rw [h0]
    exact Or.inl rfl
  · rw [heq]
    exact Or.inr ⟨h, m, o1, o2, rfl⟩
